import Mathlib

/-!
# telebot: the echo webhook and its Telegram API client

A shallow embedding of `main.go`.  The program's own code (`apiURL`, `request`,
the `/webhook` handler, `unixTime`) is translated function by function.  The Go
standard library it calls is represented as follows.

* `encoding/json` is modelled on parsed JSON values (`Json`): a body is
  represented by what the decoder's reader makes of it (`Body`), and decoding
  into the program's struct types follows the struct declarations of the
  source (field names, tags and types).  The reader itself (`readBody`) is the
  scanner of the package, run over the text of a body up to the end of its
  first value.
* `net/http`: `http.NewRequest` and `http.DefaultClient.Do` are the
  environment (`World`); `http.Error` writes the status and the message
  followed by a newline.
* `fmt.Sprintf` / `fmt.Errorf` with `%s` and `%d` are string concatenation.
* `time`: `time.Unix`, `Time.Format(time.RFC3339)` and, to read the text back,
  `time.Parse(time.RFC3339, _)` are modelled on integers, after the calendar
  arithmetic of the package (`absDate`, `Date`, `appendInt`).
-/

namespace Telebot

/-! ## JSON values -/

mutual
/-- A parsed JSON value.  A number keeps its literal text. -/
inductive Json where
  | null
  | bool (b : Bool)
  | num (lit : String)
  | str (s : String)
  | arr (xs : JsonList)
  | obj (kvs : JsonMembers)
/-- The elements of a JSON array. -/
inductive JsonList where
  | nil
  | cons (x : Json) (xs : JsonList)
/-- The members of a JSON object, in document order. -/
inductive JsonMembers where
  | nil
  | cons (k : String) (v : Json) (rest : JsonMembers)
end

/-- The word `encoding/json` uses for a value of this shape in a type error. -/
def Json.kindName : Json → String
  | .null => "null"
  | .bool _ => "bool"
  | .num _ => "number"
  | .str _ => "string"
  | .arr _ => "array"
  | .obj _ => "object"

/-- Look a key up among the members of an object (first occurrence). -/
def JsonMembers.find (key : String) : JsonMembers → Option Json
  | .nil => none
  | .cons k v rest => if k = key then some v else rest.find key

/-- Member lookup on a value: `none` unless it is an object with that key. -/
def Json.get (key : String) : Json → Option Json
  | .obj kvs => kvs.find key
  | _ => none

/-- A stream handed to `json.NewDecoder(...).Decode`, as the decoder sees it:
either reading the first value fails (read error, syntax error, premature end)
with the given error text, or the stream starts with the value `v`. -/
inductive Body where
  | garbage (err : String)
  | json (v : Json)

/-! ## Errors -/

/-- Decimal rendering of a Go `int` (the `%d` verb, and `json.Marshal`). -/
def fmtInt : Int → String
  | .ofNat n => Nat.repr n
  | .negSucc n => "-" ++ Nat.repr (n + 1)

/-- The error values the program handles. -/
inductive GoError where
  /-- An error produced by the environment, carrying its text. -/
  | lib (text : String)
  /-- The value built by `fmt.Errorf("got: %s [%d]", description, code)`. -/
  | api (description : String) (code : Int)
  /-- A `*json.UnmarshalTypeError`. -/
  | unmarshalType (value : String) (goType : String) (strct : String) (field : String)
  deriving DecidableEq

/-- The method `Error()` of an error value. -/
def GoError.Error : GoError → String
  | .lib text => text
  | .api description code => "got: " ++ description ++ " [" ++ fmtInt code ++ "]"
  | .unmarshalType value goType strct field =>
    if strct ≠ "" ∨ field ≠ "" then
      "json: cannot unmarshal " ++ value ++ " into Go struct field " ++ strct ++ "." ++ field
        ++ " of type " ++ goType
    else
      "json: cannot unmarshal " ++ value ++ " into Go value of type " ++ goType

/-! ## Decoding JSON into Go values -/

/-- Where the decoder is inside the target: the struct being filled and the
path of field names that leads to the current field. -/
structure ErrCtx where
  strct : String
  stack : List String

/-- The context at the top of a target value. -/
def ErrCtx.top : ErrCtx := ⟨"", []⟩

/-- Enter field `name` of struct type `strct`. -/
def ErrCtx.push (ctx : ErrCtx) (strct name : String) : ErrCtx :=
  ⟨strct, ctx.stack ++ [name]⟩

/-- The type error raised at this position. -/
def typeErr (ctx : ErrCtx) (value goType : String) : GoError :=
  .unmarshalType value goType ctx.strct (".".intercalate ctx.stack)

/-- Keep the first error (the decoder saves the first and goes on). -/
def firstErr : Option GoError → Option GoError → Option GoError
  | some e, _ => some e
  | none, e => e

/-- Case folding used to match an object key with a field name: ASCII letters
fold to upper case, and U+017F and U+212A fold to `S` and `K`. -/
def foldRune (c : Char) : Char :=
  if c = Char.ofNat 0x17F then 'S'
  else if c = Char.ofNat 0x212A then 'K'
  else if 'a' ≤ c ∧ c ≤ 'z' then Char.ofNat (c.toNat - 32)
  else c

/-- Whether object key `key` selects the field named `name`. -/
def keyIs (key name : String) : Bool :=
  key.data.map foldRune = name.data.map foldRune

/-- Value of a decimal digit. -/
def digitVal (c : Char) : Option Nat :=
  if '0' ≤ c ∧ c ≤ '9' then some (c.toNat - 48) else none

/-- Read a run of decimal digits onto `acc`; `none` at a non-digit. -/
def parseDigits : List Char → Nat → Option Nat
  | [], acc => some acc
  | c :: cs, acc =>
    match digitVal c with
    | none => none
    | some d => parseDigits cs (acc * 10 + d)

/-- The function `strconv.ParseInt(s, 10, 64)`: an optional sign and at least one
digit, nothing else, within the range of `int64`. -/
def parseInt64 (s : String) : Option Int :=
  match s.data with
  | [] => none
  | '-' :: c :: cs =>
    match parseDigits (c :: cs) 0 with
    | some n => if n ≤ 2 ^ 63 then some (-(n : Int)) else none
    | none => none
  | '+' :: c :: cs =>
    match parseDigits (c :: cs) 0 with
    | some n => if n < 2 ^ 63 then some (n : Int) else none
    | none => none
  | c :: cs =>
    match parseDigits (c :: cs) 0 with
    | some n => if n < 2 ^ 63 then some (n : Int) else none
    | none => none

/-- Decode into a field of integer kind (`int`, `unixTime`). -/
def decodeInt (ctx : ErrCtx) (goType : String) (v : Json) (cur : Int) : Int × Option GoError :=
  match v with
  | .null => (cur, none)
  | .num lit =>
    match parseInt64 lit with
    | some n => (n, none)
    | none => (cur, some (typeErr ctx ("number " ++ lit) goType))
  | other => (cur, some (typeErr ctx other.kindName goType))

/-- Decode into a `string` field. -/
def decodeString (ctx : ErrCtx) (v : Json) (cur : String) : String × Option GoError :=
  match v with
  | .null => (cur, none)
  | .str s => (s, none)
  | other => (cur, some (typeErr ctx other.kindName "string"))

/-- Decode into a `bool` field. -/
def decodeBool (ctx : ErrCtx) (v : Json) (cur : Bool) : Bool × Option GoError :=
  match v with
  | .null => (cur, none)
  | .bool b => (b, none)
  | other => (cur, some (typeErr ctx other.kindName "bool"))

/-- Feed the members of an object, in order, to the field setter of a struct. -/
def decodeMembers {σ : Type} (set : String → Json → σ → σ × Option GoError) :
    JsonMembers → σ → σ × Option GoError
  | .nil, s => (s, none)
  | .cons k v rest, s =>
    let r1 := set k v s
    let r2 := decodeMembers set rest r1.1
    (r2.1, firstErr r1.2 r2.2)

/-- Decode into a struct: `null` leaves it alone, an object fills its fields,
anything else is a type error. -/
def decodeObject {σ : Type} (ctx : ErrCtx) (goType : String)
    (set : String → Json → σ → σ × Option GoError) (v : Json) (cur : σ) : σ × Option GoError :=
  match v with
  | .null => (cur, none)
  | .obj kvs => decodeMembers set kvs cur
  | other => (cur, some (typeErr ctx other.kindName goType))

/-- Insert a member into key-sorted members, replacing an equal key. -/
def insertMember (k : String) (v : Json) : JsonMembers → JsonMembers
  | .nil => .cons k v .nil
  | .cons k1 v1 rest =>
    if k < k1 then .cons k v (.cons k1 v1 rest)
    else if k = k1 then .cons k v rest
    else .cons k1 v1 (insertMember k v rest)

mutual
/-- Decode into an `interface{}`.  The Go value (nil, bool, float64, string,
slice, map) is represented by the JSON text `json.Marshal` renders it to: map
keys sorted with the last duplicate kept, numbers as `f64` re-renders them
(`f64 lit = none` when the literal is out of range for a float64, a type error
that leaves nil in its place). -/
def decodeAny (f64 : String → Option String) (ctx : ErrCtx) : Json → Json × Option GoError
  | .null => (.null, none)
  | .bool b => (.bool b, none)
  | .str s => (.str s, none)
  | .num lit =>
    match f64 lit with
    | some l => (.num l, none)
    | none => (.null, some (typeErr ctx ("number " ++ lit) "float64"))
  | .arr xs =>
    let r := decodeAnyList f64 ctx xs
    (.arr r.1, r.2)
  | .obj kvs =>
    let r := decodeAnyMembers f64 ctx kvs .nil
    (.obj r.1, r.2)
/-- Decode the elements of an array into a `[]interface{}`. -/
def decodeAnyList (f64 : String → Option String) (ctx : ErrCtx) : JsonList → JsonList × Option GoError
  | .nil => (.nil, none)
  | .cons x xs =>
    let r1 := decodeAny f64 ctx x
    let r2 := decodeAnyList f64 ctx xs
    (.cons r1.1 r2.1, firstErr r1.2 r2.2)
/-- Decode the members of an object into a `map[string]interface{}`. -/
def decodeAnyMembers (f64 : String → Option String) (ctx : ErrCtx) :
    JsonMembers → JsonMembers → JsonMembers × Option GoError
  | .nil, acc => (acc, none)
  | .cons k v rest, acc =>
    let r1 := decodeAny f64 ctx v
    let r2 := decodeAnyMembers f64 ctx rest (insertMember k r1.1 acc)
    (r2.1, firstErr r1.2 r2.2)
end

/-! ## The data model of `main.go` -/

/-- The type `unixTime` (an `int`: seconds since the Unix epoch). -/
abbrev unixTime := Int

/-- The struct `mUser`. -/
structure mUser where
  ID : Int := 0
  IsBot : Bool := false
  FirstName : String := ""
  LastName : String := ""
  Username : String := ""
  LanguageCode : String := ""
  deriving DecidableEq

/-- The struct `mChat`. -/
structure mChat where
  ID : Int := 0
  FirstName : String := ""
  LastName : String := ""
  Username : String := ""
  /-- The field `Type` (a reserved word here). -/
  Type_ : String := ""
  deriving DecidableEq

/-- The struct `mMessage`. -/
structure mMessage where
  ID : Int := 0
  From : mUser := {}
  Chat : mChat := {}
  Date : unixTime := 0
  Text : String := ""
  deriving DecidableEq

/-- The type `resSendMessage`, declared as `mMessage`. -/
abbrev resSendMessage := mMessage

/-- The struct `mUpdate`. -/
structure mUpdate where
  ID : Int := 0
  Message : mMessage := {}
  deriving DecidableEq

/-- The struct `reqSendMessage`. -/
structure reqSendMessage where
  ChatID : Int
  Text : String
  ReplyToMessageID : Int
  ParseMode : String
  deriving DecidableEq

/-- The anonymous struct `out` of `request`: the response envelope.  `Result`
is an `interface{}`, held as described at `decodeAny` (`Json.null` is nil). -/
structure Envelope where
  Ok : Bool := false
  ErrorCode : Int := 0
  Description : String := ""
  Result : Json := .null

/-- Set the field of an `mUser` that key `k` selects (keys: `ID`, `is_bot`,
`first_name`, `last_name`, `Username`, `language_code`). -/
def mUser.setField (ctx : ErrCtx) (k : String) (v : Json) (u : mUser) : mUser × Option GoError :=
  if keyIs k "ID" then
    let r := decodeInt (ctx.push "mUser" "ID") "int" v u.ID
    ({ u with ID := r.1 }, r.2)
  else if keyIs k "is_bot" then
    let r := decodeBool (ctx.push "mUser" "is_bot") v u.IsBot
    ({ u with IsBot := r.1 }, r.2)
  else if keyIs k "first_name" then
    let r := decodeString (ctx.push "mUser" "first_name") v u.FirstName
    ({ u with FirstName := r.1 }, r.2)
  else if keyIs k "last_name" then
    let r := decodeString (ctx.push "mUser" "last_name") v u.LastName
    ({ u with LastName := r.1 }, r.2)
  else if keyIs k "Username" then
    let r := decodeString (ctx.push "mUser" "Username") v u.Username
    ({ u with Username := r.1 }, r.2)
  else if keyIs k "language_code" then
    let r := decodeString (ctx.push "mUser" "language_code") v u.LanguageCode
    ({ u with LanguageCode := r.1 }, r.2)
  else (u, none)

/-- Set the field of an `mChat` that key `k` selects (keys: `ID`,
`first_name`, `last_name`, `Username`, `Type`). -/
def mChat.setField (ctx : ErrCtx) (k : String) (v : Json) (c : mChat) : mChat × Option GoError :=
  if keyIs k "ID" then
    let r := decodeInt (ctx.push "mChat" "ID") "int" v c.ID
    ({ c with ID := r.1 }, r.2)
  else if keyIs k "first_name" then
    let r := decodeString (ctx.push "mChat" "first_name") v c.FirstName
    ({ c with FirstName := r.1 }, r.2)
  else if keyIs k "last_name" then
    let r := decodeString (ctx.push "mChat" "last_name") v c.LastName
    ({ c with LastName := r.1 }, r.2)
  else if keyIs k "Username" then
    let r := decodeString (ctx.push "mChat" "Username") v c.Username
    ({ c with Username := r.1 }, r.2)
  else if keyIs k "Type" then
    let r := decodeString (ctx.push "mChat" "Type") v c.Type_
    ({ c with Type_ := r.1 }, r.2)
  else (c, none)

/-- Set the field of an `mMessage` that key `k` selects (keys: `message_id`,
`From`, `Chat`, `Date`, `Text`).  `name` is the name of the struct type being
filled (`mMessage`, or `resSendMessage` for the type declared from it). -/
def mMessage.setField (name : String) (ctx : ErrCtx) (k : String) (v : Json) (m : mMessage) :
    mMessage × Option GoError :=
  if keyIs k "message_id" then
    let r := decodeInt (ctx.push name "message_id") "int" v m.ID
    ({ m with ID := r.1 }, r.2)
  else if keyIs k "From" then
    let c := ctx.push name "From"
    let r := decodeObject c "main.mUser" (mUser.setField c) v m.From
    ({ m with From := r.1 }, r.2)
  else if keyIs k "Chat" then
    let c := ctx.push name "Chat"
    let r := decodeObject c "main.mChat" (mChat.setField c) v m.Chat
    ({ m with Chat := r.1 }, r.2)
  else if keyIs k "Date" then
    let r := decodeInt (ctx.push name "Date") "main.unixTime" v m.Date
    ({ m with Date := r.1 }, r.2)
  else if keyIs k "Text" then
    let r := decodeString (ctx.push name "Text") v m.Text
    ({ m with Text := r.1 }, r.2)
  else (m, none)

/-- Set the field of an `mUpdate` that key `k` selects (keys: `update_id`,
`Message`). -/
def mUpdate.setField (ctx : ErrCtx) (k : String) (v : Json) (u : mUpdate) : mUpdate × Option GoError :=
  if keyIs k "update_id" then
    let r := decodeInt (ctx.push "mUpdate" "update_id") "int" v u.ID
    ({ u with ID := r.1 }, r.2)
  else if keyIs k "Message" then
    let c := ctx.push "mUpdate" "Message"
    let r := decodeObject c "main.mMessage" (mMessage.setField "mMessage" c) v u.Message
    ({ u with Message := r.1 }, r.2)
  else (u, none)

/-- Set the field of the envelope that key `k` selects (keys: `Ok`,
`error_code`, `Description`, `Result`).  The struct type has no name. -/
def Envelope.setField (f64 : String → Option String) (ctx : ErrCtx) (k : String) (v : Json)
    (o : Envelope) : Envelope × Option GoError :=
  if keyIs k "Ok" then
    let r := decodeBool (ctx.push "" "Ok") v o.Ok
    ({ o with Ok := r.1 }, r.2)
  else if keyIs k "error_code" then
    let r := decodeInt (ctx.push "" "error_code") "int" v o.ErrorCode
    ({ o with ErrorCode := r.1 }, r.2)
  else if keyIs k "Description" then
    let r := decodeString (ctx.push "" "Description") v o.Description
    ({ o with Description := r.1 }, r.2)
  else if keyIs k "Result" then
    let r := decodeAny f64 (ctx.push "" "Result") v
    ({ o with Result := r.1 }, r.2)
  else (o, none)

/-- The name Go prints for the type of `out`. -/
def envelopeTypeName : String :=
  "struct \x7b Ok bool; ErrorCode int \"json:\\\"error_code\\\"\"; Description string; "
    ++ "Result interface \x7b\x7d \x7d"

/-- The call `json.NewDecoder(r.Body).Decode(&update)` on a fresh `update`:
the value of `update` afterwards and the error returned. -/
def decodeUpdate : Body → mUpdate × Option GoError
  | .garbage err => ({}, some (.lib err))
  | .json v => decodeObject ErrCtx.top "main.mUpdate" (mUpdate.setField ErrCtx.top) v {}

/-- The call `json.NewDecoder(response.Body).Decode(&out)` on a fresh `out`. -/
def decodeEnvelope (f64 : String → Option String) : Body → Envelope × Option GoError
  | .garbage err => ({}, some (.lib err))
  | .json v => decodeObject ErrCtx.top envelopeTypeName (Envelope.setField f64 ErrCtx.top) v {}

/-- The call `json.Unmarshal(b, data)` for `data` pointing at a
`resSendMessage`: the value pointed at afterwards and the error returned. -/
def unmarshalResSendMessage (b : Json) (cur : resSendMessage) : resSendMessage × Option GoError :=
  decodeObject ErrCtx.top "main.resSendMessage" (mMessage.setField "resSendMessage" ErrCtx.top) b cur

/-- The call `json.Marshal` on a `reqSendMessage`: an object with the tagged
keys in field order.  It cannot fail. -/
def marshalReqSendMessage (r : reqSendMessage) : Except GoError Json :=
  .ok (.obj (.cons "chat_id" (.num (fmtInt r.ChatID))
    (.cons "text" (.str r.Text)
    (.cons "reply_to_message_id" (.num (fmtInt r.ReplyToMessageID))
    (.cons "parse_mode" (.str r.ParseMode) .nil)))))

/-! ## The environment -/

/-- An outbound HTTP request as `request` builds it.  `body = none` is the
empty body sent when no parameter was given. -/
structure HttpRequest where
  method : String
  url : String
  contentType : String
  body : Option Json

/-- What `http.DefaultClient.Do` returns on success: the status code and the
response body. -/
structure HttpResponse where
  status : Nat
  body : Body

/-- Everything outside the program.
* `token`: the value of `TELEGRAM_API_BOT_TOKEN` read at start-up;
* `newRequest method url`: the error text of `http.NewRequest`, if it fails;
* `roundTrip`: `http.DefaultClient.Do`, an error text or a response;
* `float64`: how a JSON number comes back after it was decoded into an
  `interface{}` (a float64) and marshalled again, `none` if out of range. -/
structure World where
  token : String
  newRequest : String → String → Option String
  roundTrip : HttpRequest → Except String HttpResponse
  float64 : String → Option String

/-- What a call of `request` does that can be observed from outside it. -/
inductive Event where
  /-- `http.DefaultClient.Do(request)` was called. -/
  | send (r : HttpRequest)
  /-- `json.Marshal(out.Result)` was called; `v` is its output. -/
  | marshalResult (v : Json)
  /-- `json.Unmarshal(b, data)` was called. -/
  | unmarshalResult (b : Json)

/-- The state after `request` returns: the error returned, the result target
(`none` for a nil `data`, else the value it points at) and what was done. -/
structure Outcome (τ : Type) where
  err : Option GoError
  data : Option τ
  trace : List Event

/-! ## The program -/

/-- The constant `telegramAPIBaseURL`. -/
def telegramAPIBaseURL : String := "https://api.telegram.org"

/-- The constant `rGetMe`. -/
def rGetMe : String := "getMe"

/-- The constant `rSendMessage`. -/
def rSendMessage : String := "sendMessage"

/-- The function `apiURL`: `fmt.Sprintf("%s/bot%s/%s", telegramAPIBaseURL,
telegramAPIBotToken, method)`. -/
def apiURL (telegramAPIBotToken : String) (method : String) : String :=
  telegramAPIBaseURL ++ "/bot" ++ telegramAPIBotToken ++ "/" ++ method

/-- The first part of `request`: `json.Marshal(params[0])` when a parameter
was given, no body otherwise. -/
def marshalParams {π : Type} (marshal : π → Except GoError Json) :
    List π → Except GoError (Option Json)
  | [] => .ok none
  | p :: _ =>
    match marshal p with
    | .error e => .error e
    | .ok b => .ok (some b)

/-- The function `request(method, data, params...)`.  `marshal` and
`unmarshal` are `json.Marshal` on the parameter type and `json.Unmarshal` into
the target type. -/
def request {π τ : Type} (w : World) (marshal : π → Except GoError Json)
    (unmarshal : Json → τ → τ × Option GoError)
    (method : String) (data : Option τ) (params : List π) : Outcome τ :=
  match marshalParams marshal params with
  | .error err => ⟨some err, data, []⟩
  | .ok body =>
    match w.newRequest "POST" (apiURL w.token method) with
    | some err => ⟨some (.lib err), data, []⟩
    | none =>
      let request : HttpRequest :=
        ⟨"POST", apiURL w.token method, "application/json; charset=utf-8", body⟩
      match w.roundTrip request with
      | .error err => ⟨some (.lib err), data, [.send request]⟩
      | .ok response =>
        match decodeEnvelope w.float64 response.body with
        | (_, some err) => ⟨some err, data, [.send request]⟩
        | (out, none) =>
          if !out.Ok then
            ⟨some (.api out.Description out.ErrorCode), data, [.send request]⟩
          else
            match data with
            | none => ⟨none, none, [.send request]⟩
            | some target =>
              let b := out.Result
              let r := unmarshal b target
              ⟨r.2, some r.1, [.send request, .marshalResult b, .unmarshalResult b]⟩

/-- What the HTTP server sends for one request to `/webhook`. -/
structure Reply where
  status : Nat
  body : String
  deriving DecidableEq

/-- The constant `http.StatusBadRequest`. -/
def StatusBadRequest : Nat := 400

/-- The constant `http.StatusOK`. -/
def StatusOK : Nat := 200

/-- The function `http.Error(w, error, code)`: the status, and the message
written with `fmt.Fprintln`, that is followed by a newline. -/
def httpError (error : String) (code : Nat) : Reply :=
  ⟨code, error ++ "\n"⟩

/-- The reply of a handler that returns without writing: 200, empty body. -/
def noWrite : Reply :=
  ⟨StatusOK, ""⟩

/-- What one run of the handler does: the reply, the calls of `request` it
made (method and parameter), and what those calls did. -/
structure Handled where
  reply : Reply
  calls : List (String × reqSendMessage)
  trace : List Event

/-- The handler registered for `/webhook`. -/
def webhook (w : World) (body : Body) : Handled :=
  match decodeUpdate body with
  | (_, some err) => ⟨httpError err.Error StatusBadRequest, [], []⟩
  | (update, none) =>
    let req : reqSendMessage :=
      { ChatID := update.Message.Chat.ID
        Text := "*You just said:* " ++ update.Message.Text
        ReplyToMessageID := update.Message.ID
        ParseMode := "Markdown" }
    let res : resSendMessage := {}
    let out := request w marshalReqSendMessage unmarshalResSendMessage rSendMessage (some res) [req]
    match out.err with
    | some err => ⟨httpError err.Error StatusBadRequest, [(rSendMessage, req)], out.trace⟩
    | none => ⟨noWrite, [(rSendMessage, req)], out.trace⟩

/-- The requests handed to `http.DefaultClient.Do`, in order. -/
def sent : List Event → List HttpRequest
  | [] => []
  | .send r :: es => r :: sent es
  | _ :: es => sent es

/-- Whether `json.Marshal(out.Result)` or `json.Unmarshal(b, data)` ran. -/
def touchesResult : List Event → Bool
  | [] => false
  | .send _ :: es => touchesResult es
  | _ :: _ => true

/-- The parameter the handler passes to `request` for a decoded update. -/
def echoParams (update : mUpdate) : reqSendMessage :=
  { ChatID := update.Message.Chat.ID
    Text := "*You just said:* " ++ update.Message.Text
    ReplyToMessageID := update.Message.ID
    ParseMode := "Markdown" }

/-- The JSON text `json.Marshal` produces for `echoParams update`. -/
def echoPayload (update : mUpdate) : Json :=
  .obj (.cons "chat_id" (.num (fmtInt update.Message.Chat.ID))
    (.cons "text" (.str ("*You just said:* " ++ update.Message.Text))
    (.cons "reply_to_message_id" (.num (fmtInt update.Message.ID))
    (.cons "parse_mode" (.str "Markdown") .nil))))

/-- The HTTP request `request` builds for method `method` and body `body`. -/
def outbound (w : World) (method : String) (body : Option Json) : HttpRequest :=
  ⟨"POST", apiURL w.token method, "application/json; charset=utf-8", body⟩

/-! ## Concrete inputs -/

/-- The update `{"update_id":1,"message":{"message_id":5,"chat":{"id":42},"text":"hi"}}`. -/
def sampleUpdate : Json :=
  .obj (.cons "update_id" (.num "1")
    (.cons "message" (.obj (.cons "message_id" (.num "5")
      (.cons "chat" (.obj (.cons "id" (.num "42") .nil))
      (.cons "text" (.str "hi") .nil)))) .nil))

/-- The value `sampleUpdate` decodes to. -/
def sampleDecoded : mUpdate :=
  { ID := 1, Message := { ID := 5, Chat := { ID := 42 }, Text := "hi" } }

/-- A world with a well-formed token in which the API answers every request
with status `status` and body `body`.  Its `float64` is exact on literals that
are already in the form Go prints them in. -/
def answering (status : Nat) (body : Body) : World :=
  { token := "110201543:AAHdqTcvCH1vGWJxfSeofSAs0K5PALDsaw"
    newRequest := fun _ _ => none
    roundTrip := fun _ => .ok ⟨status, body⟩
    float64 := fun lit => some lit }

/-- The envelope `{"ok":true}`. -/
def bodyOk : Body :=
  .json (.obj (.cons "ok" (.bool true) .nil))

/-- The envelope `{"ok":true,"result":"done"}`. -/
def bodyOkString : Body :=
  .json (.obj (.cons "ok" (.bool true) (.cons "result" (.str "done") .nil)))

/-- The envelope
`{"ok":false,"error_code":400,"description":"Bad Request: chat not found"}`. -/
def bodyChatNotFound : Body :=
  .json (.obj (.cons "ok" (.bool false) (.cons "error_code" (.num "400")
    (.cons "description" (.str "Bad Request: chat not found") .nil))))

/-- The envelope `{"ok":false,"result":{"message_id":7}}`. -/
def bodyFailedWithResult : Body :=
  .json (.obj (.cons "ok" (.bool false)
    (.cons "result" (.obj (.cons "message_id" (.num "7") .nil)) .nil)))

/-- What `request` reads of the result of `http.DefaultClient.Do`: the error,
or the body of the response. -/
def bodyOf : Except String HttpResponse → Except String Body
  | .error err => .error err
  | .ok response => .ok response.body

/-! ## Reading a JSON value from text

The reader of `json.NewDecoder(r).Decode`: the scanner of `encoding/json`, run
over the text until the first value is complete, and the conversion of the
text of that value to a `Json`.  The text is a sequence of characters, so it
stands for a body that is valid UTF-8; where the scanner looks at bytes, a
character above U+007F counts by its first byte. -/

/-- The function `isSpace` of the scanner. -/
def isSpace (c : Char) : Bool :=
  c = ' ' ∨ c = '\t' ∨ c = '\r' ∨ c = '\n'

/-- The first byte of the UTF-8 encoding of a character. -/
def firstByte (c : Char) : Nat :=
  if c.toNat < 0x80 then c.toNat
  else if c.toNat < 0x800 then 0xC0 + c.toNat / 64
  else if c.toNat < 0x10000 then 0xE0 + c.toNat / 4096
  else 0xF0 + c.toNat / 262144

/-- A hexadecimal digit in lower case. -/
def hexDigit (n : Nat) : Char :=
  if n < 10 then Char.ofNat (48 + n) else Char.ofNat (87 + n)

/-- The function `quoteChar` on a byte: the byte as a character between single
quotes, escaped as `strconv.Quote` escapes it, with the two special cases for
the quotes themselves. -/
def quoteByte (b : Nat) : String :=
  if b = 39 then "'\\''"
  else if b = 34 then "'\"'"
  else if b = 92 then "'\\\\'"
  else if b = 7 then "'\\a'"
  else if b = 8 then "'\\b'"
  else if b = 12 then "'\\f'"
  else if b = 10 then "'\\n'"
  else if b = 13 then "'\\r'"
  else if b = 9 then "'\\t'"
  else if b = 11 then "'\\v'"
  else if b < 32 ∨ b = 127 then
    String.mk ['\'', '\\', 'x', hexDigit (b / 16), hexDigit (b % 16), '\'']
  else if (128 ≤ b ∧ b ≤ 160) ∨ b = 173 then
    String.mk ['\'', '\\', 'u', '0', '0', hexDigit (b / 16), hexDigit (b % 16), '\'']
  else String.mk ['\'', Char.ofNat b, '\'']

/-- The text of the `*json.SyntaxError` the scanner raises at character `c`. -/
def scanErrorText (c : Char) (context : String) : String :=
  "invalid character " ++ quoteByte (firstByte c) ++ " " ++ context

/-- The state functions of the scanner (`stateBeginValue`, `stateInString`,
`state1`, ...). -/
inductive Step where
  | beginValueOrEmpty
  | beginValue
  | beginStringOrEmpty
  | beginString
  | endValue
  | endTop
  | inString
  | inStringEsc
  | inStringEscU
  | inStringEscU1
  | inStringEscU12
  | inStringEscU123
  | neg
  | one
  | zero
  | dot
  | dot0
  | exp
  | expSign
  | exp0
  | litT
  | litTr
  | litTru
  | litF
  | litFa
  | litFal
  | litFals
  | litN
  | litNu
  | litNul
  | error

/-- What the scanner is inside of (`parseObjectKey`, `parseObjectValue`,
`parseArrayValue`). -/
inductive ParseState where
  | objectKey
  | objectValue
  | arrayValue

/-- The codes a state function returns, as far as the reader tells them apart:
the end of the top-level value (`scanEnd`), the end of an object or array
(`scanEndObject`, `scanEndArray`), an error with its text (`scanError`), and
any other code. -/
inductive Op where
  | other
  | endComposite
  | fin
  | error (text : String)

/-- The scanner: the current state function, the stack `parseState` (top
first) and the text of the error it has met, if any. -/
structure Scanner where
  step : Step
  parseState : List ParseState
  err : String := ""

/-- The constant `maxNestingDepth`. -/
def maxNestingDepth : Nat := 10000

/-- The method `error` of the scanner. -/
def Scanner.fail (s : Scanner) (c : Char) (context : String) : Scanner × Op :=
  ({ s with step := .error, err := scanErrorText c context }, .error (scanErrorText c context))

/-- The method `pushParseState`, entering state `next`. -/
def Scanner.push (s : Scanner) (c : Char) (p : ParseState) (next : Step) : Scanner × Op :=
  if s.parseState.length + 1 ≤ maxNestingDepth then
    ({ s with step := next, parseState := p :: s.parseState }, .other)
  else
    ({ step := .error, parseState := p :: s.parseState, err := scanErrorText c "exceeded max depth" },
      .error (scanErrorText c "exceeded max depth"))

/-- The function `stateEndTop`: after the top-level value.  A character that
is not white space is an error for the next call; this call reports the end. -/
def stateEndTop (s : Scanner) (c : Char) : Scanner × Op :=
  if isSpace c then ({ s with step := .endTop }, .fin)
  else ((s.fail c "after top-level value").1, .fin)

/-- The function `stateEndValue`: after a value, at character `c`. -/
def stateEndValue (s : Scanner) (c : Char) : Scanner × Op :=
  match s.parseState with
  | [] => stateEndTop s c
  | p :: rest =>
    if isSpace c then ({ s with step := .endValue }, .other)
    else
      match p with
      | .objectKey =>
        if c = ':' then ({ s with step := .beginValue, parseState := .objectValue :: rest }, .other)
        else s.fail c "after object key"
      | .objectValue =>
        if c = ',' then ({ s with step := .beginString, parseState := .objectKey :: rest }, .other)
        else if c = '}' then
          ({ s with step := if rest.isEmpty then .endTop else .endValue, parseState := rest },
            .endComposite)
        else s.fail c "after object key:value pair"
      | .arrayValue =>
        if c = ',' then ({ s with step := .beginValue }, .other)
        else if c = ']' then
          ({ s with step := if rest.isEmpty then .endTop else .endValue, parseState := rest },
            .endComposite)
        else s.fail c "after array element"

/-- The function `stateBeginValue`. -/
def stateBeginValue (s : Scanner) (c : Char) : Scanner × Op :=
  if isSpace c then (s, .other)
  else if c = '{' then s.push c .objectKey .beginStringOrEmpty
  else if c = '[' then s.push c .arrayValue .beginValueOrEmpty
  else if c = '"' then ({ s with step := .inString }, .other)
  else if c = '-' then ({ s with step := .neg }, .other)
  else if c = '0' then ({ s with step := .zero }, .other)
  else if c = 't' then ({ s with step := .litT }, .other)
  else if c = 'f' then ({ s with step := .litF }, .other)
  else if c = 'n' then ({ s with step := .litN }, .other)
  else if '1' ≤ c ∧ c ≤ '9' then ({ s with step := .one }, .other)
  else s.fail c "looking for beginning of value"

/-- The function `stateBeginString`. -/
def stateBeginString (s : Scanner) (c : Char) : Scanner × Op :=
  if isSpace c then (s, .other)
  else if c = '"' then ({ s with step := .inString }, .other)
  else s.fail c "looking for beginning of object key string"

/-- The function `state0`: after a leading zero, or the digits of a number. -/
def state0 (s : Scanner) (c : Char) : Scanner × Op :=
  if c = '.' then ({ s with step := .dot }, .other)
  else if c = 'e' ∨ c = 'E' then ({ s with step := .exp }, .other)
  else stateEndValue s c

/-- The function `stateESign`: after the sign of an exponent. -/
def stateESign (s : Scanner) (c : Char) : Scanner × Op :=
  if '0' ≤ c ∧ c ≤ '9' then ({ s with step := .exp0 }, .other)
  else s.fail c "in exponent of numeric literal"

/-- Whether `c` is a hexadecimal digit. -/
def isHex (c : Char) : Bool :=
  ('0' ≤ c ∧ c ≤ '9') ∨ ('a' ≤ c ∧ c ≤ 'f') ∨ ('A' ≤ c ∧ c ≤ 'F')

/-- One letter of a literal: `want` leads on to `next`. -/
def stateLetter (s : Scanner) (c want : Char) (next : Step) (context : String) : Scanner × Op :=
  if c = want then ({ s with step := next }, .other) else s.fail c context

/-- One call `s.step(s, c)`. -/
def Scanner.feed (s : Scanner) (c : Char) : Scanner × Op :=
  match s.step with
  | .beginValueOrEmpty =>
    if isSpace c then (s, .other)
    else if c = ']' then stateEndValue s c
    else stateBeginValue { s with step := .beginValue } c
  | .beginValue => stateBeginValue s c
  | .beginStringOrEmpty =>
    if isSpace c then (s, .other)
    else if c = '}' then
      stateEndValue { s with parseState := .objectValue :: s.parseState.tail } c
    else stateBeginString { s with step := .beginString } c
  | .beginString => stateBeginString s c
  | .endValue => stateEndValue s c
  | .endTop => stateEndTop s c
  | .inString =>
    if c = '"' then ({ s with step := .endValue }, .other)
    else if c = '\\' then ({ s with step := .inStringEsc }, .other)
    else if c.toNat < 0x20 then s.fail c "in string literal"
    else (s, .other)
  | .inStringEsc =>
    if c = 'b' ∨ c = 'f' ∨ c = 'n' ∨ c = 'r' ∨ c = 't' ∨ c = '\\' ∨ c = '/' ∨ c = '"' then
      ({ s with step := .inString }, .other)
    else if c = 'u' then ({ s with step := .inStringEscU }, .other)
    else s.fail c "in string escape code"
  | .inStringEscU =>
    if isHex c then ({ s with step := .inStringEscU1 }, .other)
    else s.fail c "in \\u hexadecimal character escape"
  | .inStringEscU1 =>
    if isHex c then ({ s with step := .inStringEscU12 }, .other)
    else s.fail c "in \\u hexadecimal character escape"
  | .inStringEscU12 =>
    if isHex c then ({ s with step := .inStringEscU123 }, .other)
    else s.fail c "in \\u hexadecimal character escape"
  | .inStringEscU123 =>
    if isHex c then ({ s with step := .inString }, .other)
    else s.fail c "in \\u hexadecimal character escape"
  | .neg =>
    if c = '0' then ({ s with step := .zero }, .other)
    else if '1' ≤ c ∧ c ≤ '9' then ({ s with step := .one }, .other)
    else s.fail c "in numeric literal"
  | .one =>
    if '0' ≤ c ∧ c ≤ '9' then (s, .other) else state0 s c
  | .zero => state0 s c
  | .dot =>
    if '0' ≤ c ∧ c ≤ '9' then ({ s with step := .dot0 }, .other)
    else s.fail c "after decimal point in numeric literal"
  | .dot0 =>
    if '0' ≤ c ∧ c ≤ '9' then (s, .other)
    else if c = 'e' ∨ c = 'E' then ({ s with step := .exp }, .other)
    else stateEndValue s c
  | .exp =>
    if c = '+' ∨ c = '-' then ({ s with step := .expSign }, .other)
    else stateESign s c
  | .expSign => stateESign s c
  | .exp0 =>
    if '0' ≤ c ∧ c ≤ '9' then (s, .other) else stateEndValue s c
  | .litT => stateLetter s c 'r' .litTr "in literal true (expecting 'r')"
  | .litTr => stateLetter s c 'u' .litTru "in literal true (expecting 'u')"
  | .litTru => stateLetter s c 'e' .endValue "in literal true (expecting 'e')"
  | .litF => stateLetter s c 'a' .litFa "in literal false (expecting 'a')"
  | .litFa => stateLetter s c 'l' .litFal "in literal false (expecting 'l')"
  | .litFal => stateLetter s c 's' .litFals "in literal false (expecting 's')"
  | .litFals => stateLetter s c 'e' .endValue "in literal false (expecting 'e')"
  | .litN => stateLetter s c 'u' .litNu "in literal null (expecting 'u')"
  | .litNu => stateLetter s c 'l' .litNul "in literal null (expecting 'l')"
  | .litNul => stateLetter s c 'l' .endValue "in literal null (expecting 'l')"
  | .error => (s, .error s.err)

/-- The scanner after `reset`. -/
def Scanner.start : Scanner :=
  ⟨.beginValue, [], ""⟩

/-- The loop of `Decoder.readValue` over the text of the body: `taken` holds
the characters scanned so far, last first.  The result is the text of the
first value and the text left over, or the error text.  At the end of an
object or array at the top level the value ends with that character; a number
or literal ends before the character that follows it; at the end of the text
a value that a space would complete is complete, and anything else is an
unexpected end (`io.ErrUnexpectedEOF`), or `io.EOF` when there was nothing
but white space. -/
def readLoop (s : Scanner) (taken : List Char) : List Char → Except String (List Char × List Char)
  | [] =>
    match (s.feed ' ').2 with
    | .fin => .ok (taken.reverse, [])
    | _ => if taken.all isSpace then .error "EOF" else .error "unexpected EOF"
  | c :: cs =>
    match s.feed c with
    | (_, .fin) => .ok (taken.reverse, c :: cs)
    | (_, .error text) => .error text
    | (s1, .endComposite) =>
      match (stateEndValue s1 ' ').2 with
      | .fin => .ok ((c :: taken).reverse, cs)
      | _ => readLoop (stateEndValue s1 ' ').1 (c :: taken) cs
    | (s1, .other) => readLoop s1 (c :: taken) cs

/-- The method `Decoder.readValue` on a fresh decoder. -/
def readValue (text : String) : Except String (List Char × List Char) :=
  readLoop Scanner.start [] text.data


/-! ## From the text of a value to the value -/

/-- Value of a hexadecimal digit. -/
def hexVal (c : Char) : Nat :=
  if '0' ≤ c ∧ c ≤ '9' then c.toNat - 48
  else if 'a' ≤ c ∧ c ≤ 'f' then c.toNat - 87
  else c.toNat - 55

/-- The function `getu4`: the number written by `\uXXXX` at the head of the
text, and the text behind it. -/
def getu4 : List Char → Option (Nat × List Char)
  | '\\' :: 'u' :: a :: b :: c :: d :: rest =>
    if isHex a ∧ isHex b ∧ isHex c ∧ isHex d then
      some (((hexVal a * 16 + hexVal b) * 16 + hexVal c) * 16 + hexVal d, rest)
    else none
  | _ => none

/-- The loop of `unquote`, behind the opening quote: the characters of the
string (`out`, last first) and the text behind the closing quote.  A `\u`
escape that is half of a surrogate pair joins with the other half if that
follows, and is U+FFFD otherwise. -/
def unquoteLoop : Nat → List Char → List Char → List Char × List Char
  | 0, cs, out => (out.reverse, cs)
  | _ + 1, [], out => (out.reverse, [])
  | fuel + 1, c :: cs, out =>
    if c = '"' then (out.reverse, cs)
    else if c = '\\' then
      match cs with
      | [] => (out.reverse, [])
      | e :: rest =>
        if e = 'u' then
          match getu4 (c :: cs) with
          | none => (out.reverse, cs)
          | some (rr, rest1) =>
            if 0xD800 ≤ rr ∧ rr < 0xE000 then
              match getu4 rest1 with
              | some (rr1, rest2) =>
                if rr < 0xDC00 ∧ 0xDC00 ≤ rr1 ∧ rr1 < 0xE000 then
                  unquoteLoop fuel rest2
                    (Char.ofNat ((rr - 0xD800) * 1024 + (rr1 - 0xDC00) + 0x10000) :: out)
                else unquoteLoop fuel rest1 (Char.ofNat 0xFFFD :: out)
              | none => unquoteLoop fuel rest1 (Char.ofNat 0xFFFD :: out)
            else unquoteLoop fuel rest1 (Char.ofNat rr :: out)
        else if e = 'b' then unquoteLoop fuel rest (Char.ofNat 8 :: out)
        else if e = 'f' then unquoteLoop fuel rest (Char.ofNat 12 :: out)
        else if e = 'n' then unquoteLoop fuel rest ('\n' :: out)
        else if e = 'r' then unquoteLoop fuel rest ('\r' :: out)
        else if e = 't' then unquoteLoop fuel rest ('\t' :: out)
        else unquoteLoop fuel rest (e :: out)
    else unquoteLoop fuel cs (c :: out)

/-- A string literal behind its opening quote: the string and the text behind
the closing quote. -/
def unquote (cs : List Char) : String × List Char :=
  let r := unquoteLoop (cs.length + 1) cs []
  (String.mk r.1, r.2)

/-- Whether `c` can stand in a number literal. -/
def isNumberChar (c : Char) : Bool :=
  ('0' ≤ c ∧ c ≤ '9') ∨ c = '-' ∨ c = '+' ∨ c = '.' ∨ c = 'e' ∨ c = 'E'

mutual
/-- The value at the head of a text that the scanner has accepted, and the
text behind it. -/
def buildValue : Nat → List Char → Json × List Char
  | 0, cs => (.null, cs)
  | fuel + 1, cs =>
    match cs.dropWhile isSpace with
    | [] => (.null, [])
    | c :: rest =>
      if c = '{' then
        let r := buildMembers fuel rest
        (.obj r.1, r.2)
      else if c = '[' then
        let r := buildElements fuel rest
        (.arr r.1, r.2)
      else if c = '"' then
        let r := unquote rest
        (.str r.1, r.2)
      else if c = 't' then (.bool true, rest.drop 3)
      else if c = 'f' then (.bool false, rest.drop 4)
      else if c = 'n' then (.null, rest.drop 3)
      else (.num (String.mk ((c :: rest).takeWhile isNumberChar)),
        (c :: rest).dropWhile isNumberChar)
/-- The elements of an array, behind its opening bracket or an element. -/
def buildElements : Nat → List Char → JsonList × List Char
  | 0, cs => (.nil, cs)
  | fuel + 1, cs =>
    match cs.dropWhile isSpace with
    | [] => (.nil, [])
    | c :: rest =>
      if c = ']' then (.nil, rest)
      else if c = ',' then buildElements fuel rest
      else
        let v := buildValue fuel (c :: rest)
        let r := buildElements fuel v.2
        (.cons v.1 r.1, r.2)
/-- The members of an object, behind its opening brace or a member. -/
def buildMembers : Nat → List Char → JsonMembers × List Char
  | 0, cs => (.nil, cs)
  | fuel + 1, cs =>
    match cs.dropWhile isSpace with
    | [] => (.nil, [])
    | c :: rest =>
      if c = '}' then (.nil, rest)
      else if c = ',' then buildMembers fuel rest
      else if c = '"' then
        let k := unquote rest
        match k.2.dropWhile isSpace with
        | [] => (.nil, [])
        | _ :: rest2 =>
          let v := buildValue fuel rest2
          let r := buildMembers fuel v.2
          (.cons k.1 v.1 r.1, r.2)
      else (.nil, rest)
end

/-- The value a text that the scanner has accepted stands for. -/
def toJson (value : List Char) : Json :=
  (buildValue (2 * value.length + 2) value).1

/-- The body as the decoder reads it: the first value of the text, or the
error of reading it. -/
def readBody (text : String) : Body :=
  match readValue text with
  | .error err => .garbage err
  | .ok (value, _) => .json (toJson value)

/-- The function `json.Valid`: whether the text is a JSON text, that is one
value with nothing but white space around it. -/
def validJSON (text : String) : Bool :=
  match readValue text with
  | .error _ => false
  | .ok (_, rest) => rest.all isSpace

/-- The text `{"update_id":1,"message":{"message_id":5,"chat":{"id":42},"text":"hi"}}`. -/
def sampleText : String :=
  "\x7b\"update_id\":1,\"message\":\x7b\"message_id\":5,\"chat\":\x7b\"id\":42\x7d,"
    ++ "\"text\":\"hi\"\x7d\x7d"

/-- The text of `sampleText` followed by `]]`. -/
def sampleTextTrailing : String :=
  sampleText ++ "]]"

/-! ## Time

The package `time`, as far as `unixTime` uses it: `time.Unix`, `Time.Unix`,
`Time.Nanosecond`, `Time.Format(time.RFC3339)`, and `time.Parse(time.RFC3339, _)`
to read the text back.  Integers of type `int64` wrap around (`wrap64`),
`uint64` values are natural numbers below `2 ^ 64 = 18446744073709551616`. -/

/-- Reduce an integer to the range of `int64` (two's complement wrap-around). -/
def wrap64 (x : Int) : Int :=
  (x + 9223372036854775808) % 18446744073709551616 - 9223372036854775808

/-- The constant `secondsPerDay`. -/
def secondsPerDay : Nat := 86400

/-- The constant `daysPer400Years`. -/
def daysPer400Years : Nat := 365 * 400 + 97

/-- The constant `daysPer100Years`. -/
def daysPer100Years : Nat := 365 * 100 + 24

/-- The constant `daysPer4Years`. -/
def daysPer4Years : Nat := 365 * 4 + 1

/-- The constant `absoluteZeroYear`. -/
def absoluteZeroYear : Int := -292277022399

/-- The constant `unixToInternal`: seconds from year 1 to 1970. -/
def unixToInternal : Int := (1969 * 365 + 1969 / 4 - 1969 / 100 + 1969 / 400) * 86400

/-- The constant `unixToInternal + internalToAbsolute`: seconds from the
absolute zero year to 1970. -/
def unixToAbsolute : Int := 9223372028715321600

/-- A `time.Time` without monotonic clock reading: `wall` holds the
nanoseconds, `ext` the seconds since January 1, year 1 (an `int64`).  The
location is `time.Local` throughout and is passed separately. -/
structure Time where
  wall : Nat
  ext : Int
  deriving DecidableEq

/-- The function `time.Unix(sec, 0)`. -/
def timeUnix (sec : Int) : Time :=
  ⟨0, wrap64 (sec + unixToInternal)⟩

/-- The method `Time.Unix`: seconds since the Unix epoch. -/
def Time.Unix (t : Time) : Int :=
  wrap64 (t.ext - unixToInternal)

/-- The method `Time.Nanosecond`: the sub-second part. -/
def Time.Nanosecond (t : Time) : Nat :=
  t.wall

/-- The method `Time.abs` for a time in a location whose offset from UTC at
that instant is `offset` seconds: seconds since the absolute zero year, as a
`uint64`. -/
def Time.abs (t : Time) (offset : Int) : Nat :=
  ((t.Unix + offset + unixToAbsolute) % 18446744073709551616).toNat

/-- The function `isLeap`. -/
def isLeap (year : Int) : Bool :=
  year % 4 = 0 ∧ (year % 100 ≠ 0 ∨ year % 400 = 0)

/-- The table `daysBefore`: days in a non-leap year before month `m + 1`. -/
def daysBefore (m : Nat) : Nat :=
  [0, 31, 59, 90, 120, 151, 181, 212, 243, 273, 304, 334, 365].getD m 0

/-- First half of `absDate`: the year of the day that holds absolute second
`abs`, and the day within that year, counted from 0. -/
def absYearDay (abs : Nat) : Int × Nat :=
  let d := abs / secondsPerDay
  let n := d / daysPer400Years
  let y := 400 * n
  let d := d - daysPer400Years * n
  let n := d / daysPer100Years
  let n := n - n / 4
  let y := y + 100 * n
  let d := d - daysPer100Years * n
  let n := d / daysPer4Years
  let y := y + 4 * n
  let d := d - daysPer4Years * n
  let n := d / 365
  let n := n - n / 4
  let y := y + n
  let d := d - 365 * n
  ((y : Int) + absoluteZeroYear, d)

/-- Second half of `absDate`: month (1 to 12) and day of the month (from 1) of
day `yday` of a year that is a leap year or not. -/
def monthDay (leap : Bool) (yday : Nat) : Nat × Nat :=
  if leap ∧ yday = 31 + 29 - 1 then (2, 29)
  else
    let day := if leap ∧ yday > 31 + 29 - 1 then yday - 1 else yday
    let month := day / 31
    let fin := daysBefore (month + 1)
    if day ≥ fin then (month + 1 + 1, day - fin + 1)
    else (month + 1, day - daysBefore month + 1)

/-- The function `absDate(abs, true)`: year, month, day of the month. -/
def absDate (abs : Nat) : Int × Nat × Nat :=
  let yd := absYearDay abs
  (yd.1, monthDay (isLeap yd.1) yd.2)

/-- The function `absClock`: hour, minute, second within the day. -/
def absClock (abs : Nat) : Nat × Nat × Nat :=
  let sec := abs % secondsPerDay
  let hour := sec / 3600
  let sec := sec - hour * 3600
  let min := sec / 60
  let sec := sec - min * 60
  (hour, min, sec)

/-- The character of a decimal digit. -/
def digitChar (d : Nat) : Char :=
  Char.ofNat (48 + d)

/-- The digit loop of `appendInt`, writing backwards into a buffer of 20
bytes (`fuel` is the room left). -/
def digitsInto : Nat → Nat → List Char → List Char
  | 0, _, acc => acc
  | fuel + 1, u, acc =>
    if u ≥ 10 then digitsInto fuel (u / 10) (digitChar (u % 10) :: acc)
    else digitChar u :: acc

/-- The function `appendInt(b, x, width)`: a minus sign for a negative number,
then its decimal digits, padded with zeros on the left to `width`. -/
def appendInt (x : Int) (width : Nat) : List Char :=
  let ds := digitsInto 20 x.natAbs []
  (if x < 0 then ['-'] else []) ++ List.replicate (width - ds.length) '0' ++ ds

/-- The zone part of the layout (`Z07:00`): `Z` for offset 0, else the sign and
the offset in hours and minutes. -/
def formatZone (offset : Int) : List Char :=
  if offset = 0 then ['Z']
  else
    let zone := Int.tdiv offset 60
    if zone < 0 then
      '-' :: (appendInt (Int.tdiv (-zone) 60) 2 ++ ':' :: appendInt (Int.tmod (-zone) 60) 2)
    else
      '+' :: (appendInt (Int.tdiv zone 60) 2 ++ ':' :: appendInt (Int.tmod zone 60) 2)

/-- The method `Time.Format(time.RFC3339)`, layout `2006-01-02T15:04:05Z07:00`,
for a time whose location has the offset `offset` at that instant. -/
def Time.Format (t : Time) (offset : Int) : String :=
  let abs := t.abs offset
  let date := absDate abs
  let clock := absClock abs
  ⟨appendInt date.1 4 ++ '-' :: (appendInt date.2.1 2 ++ '-' :: (appendInt date.2.2 2
    ++ 'T' :: (appendInt clock.1 2 ++ ':' :: (appendInt clock.2.1 2
    ++ ':' :: (appendInt clock.2.2 2 ++ formatZone offset)))))⟩

/-- The method `unixTime.Time`. -/
def unixTime.Time (t : unixTime) : Time :=
  timeUnix t

/-- The method `unixTime.String`.  `loc` is `time.Local`: the offset from UTC,
in seconds, in force at a given Unix time. -/
def unixTime.String (loc : Int → Int) (t : unixTime) : String :=
  (unixTime.Time t).Format (loc (unixTime.Time t).Unix)

/-- The function `norm(hi, lo, base)`: carry `lo` into `hi` until
`0 ≤ lo < base`. -/
def norm (hi lo base : Int) : Int × Int :=
  let r :=
    if lo < 0 then
      let n := (-lo - 1) / base + 1
      (hi - n, lo + n * base)
    else (hi, lo)
  if r.2 ≥ base then
    let n := r.2 / base
    (r.1 + n, r.2 - n * base)
  else r

/-- The function `daysSinceEpoch`: days from the absolute zero year to the
start of `year`, as a `uint64`. -/
def daysSinceEpoch (year : Int) : Nat :=
  let y := ((year - absoluteZeroYear) % 18446744073709551616).toNat
  let n := y / 400
  let y := y - 400 * n
  let d := daysPer400Years * n
  let n := y / 100
  let y := y - 100 * n
  let d := d + daysPer100Years * n
  let n := y / 4
  let y := y - 4 * n
  let d := d + daysPer4Years * n
  let n := y
  let d := d + 365 * n
  d % 18446744073709551616

/-- The function `daysIn`: the number of days of month `m` of `year`. -/
def daysIn (m : Nat) (year : Int) : Nat :=
  if m = 2 ∧ isLeap year then 29
  else daysBefore m - daysBefore (m - 1)

/-- The function `time.Date(year, month, day, hour, min, sec, 0, time.UTC)`.
With no nanoseconds the normalisation of `sec` against `nsec` changes nothing
and is left out. -/
def Date (year month day hour min sec : Int) : Time :=
  let ym := norm year (month - 1) 12
  let year := ym.1
  let month := ym.2 + 1
  let ms := norm min sec 60
  let hm := norm hour ms.1 60
  let dh := norm day hm.1 24
  let sec := ms.2
  let min := hm.2
  let hour := dh.2
  let day := dh.1
  let d := daysSinceEpoch year
  let d := d + daysBefore (month - 1).toNat
  let d := if isLeap year ∧ month ≥ 3 then d + 1 else d
  let d := d + ((day - 1) % 18446744073709551616).toNat
  let abs : Nat := d * secondsPerDay
  let abs : Nat := (abs + ((hour * 3600 + min * 60 + sec) % 18446744073709551616).toNat) % 18446744073709551616
  let unix := wrap64 ((abs : Int) - unixToAbsolute)
  ⟨0, wrap64 (unix + unixToInternal)⟩

/-- The method `Time.addSec`: add `d` seconds, saturating at the ends of the
`int64` range. -/
def Time.addSec (t : Time) (d : Int) : Time :=
  let sum := wrap64 (t.ext + d)
  if decide (sum > t.ext) = decide (d > 0) then { t with ext := sum }
  else if d > 0 then { t with ext := 9223372036854775807 }
  else { t with ext := -9223372036854775807 }

/-- The function `getnum(s, true)`: exactly two digits. -/
def getnumFixed : List Char → Option (Nat × List Char)
  | a :: b :: rest =>
    match digitVal a, digitVal b with
    | some x, some y => some (x * 10 + y, rest)
    | _, _ => none
  | _ => none

/-- The function `getnum(s, false)`: one or two digits. -/
def getnum : List Char → Option (Nat × List Char)
  | [] => none
  | [a] =>
    match digitVal a with
    | some x => some (x, [])
    | none => none
  | a :: b :: rest =>
    match digitVal a, digitVal b with
    | some x, some y => some (x * 10 + y, rest)
    | some x, none => some (x, b :: rest)
    | none, _ => none

/-- The year chunk of the layout (`2006`): exactly four digits. -/
def getYear : List Char → Option (Nat × List Char)
  | a :: b :: c :: d :: rest =>
    match digitVal a, digitVal b, digitVal c, digitVal d with
    | some x, some y, some z, some u => some (((x * 10 + y) * 10 + z) * 10 + u, rest)
    | _, _, _, _ => none
  | _ => none

/-- A literal character of the layout. -/
def skipChar (c : Char) : List Char → Option (List Char)
  | [] => none
  | x :: rest => if x = c then some rest else none

/-- The zone chunk of the layout (`Z07:00`): `Z` (the result `none` stands for
UTC), or a sign, two digits, a colon and two digits, giving the offset in
seconds; hours above 24 and minutes above 60 are out of range. -/
def parseZone : List Char → Option (Option Int × List Char)
  | 'Z' :: rest => some (none, rest)
  | sign :: h1 :: h0 :: ':' :: m1 :: m0 :: rest =>
    match getnumFixed [h1, h0], getnumFixed [m1, m0] with
    | some (hr, _), some (mm, _) =>
      if hr > 24 ∨ mm > 60 then none
      else if sign = '+' then some (some (((hr * 60 + mm) * 60 : Nat) : Int), rest)
      else if sign = '-' then some (some (-(((hr * 60 + mm) * 60 : Nat) : Int)), rest)
      else none
    | _, _ => none
  | _ => none

/-- Whether a fractional second follows (a period or comma and a digit). -/
def fractionAhead : List Char → Bool
  | c :: d :: _ => (c = '.' ∨ c = ',') ∧ (digitVal d).isSome
  | _ => false

/-- The function `time.Parse(time.RFC3339, value)` on texts without a
fractional second: the time read, or `none` where `Parse` returns an error.
Texts with a fractional second are outside this model, which gives `none` for
them as well. -/
def parseRFC3339 (value : String) : Option Time :=
  match getYear value.data with
  | none => none
  | some (year, v1) =>
  match skipChar '-' v1 with
  | none => none
  | some v2 =>
  match getnumFixed v2 with
  | none => none
  | some (month, v3) =>
  if month = 0 ∨ 12 < month then none else
  match skipChar '-' v3 with
  | none => none
  | some v4 =>
  match getnumFixed v4 with
  | none => none
  | some (day, v5) =>
  match skipChar 'T' v5 with
  | none => none
  | some v6 =>
  match getnum v6 with
  | none => none
  | some (hour, v7) =>
  if 24 ≤ hour then none else
  match skipChar ':' v7 with
  | none => none
  | some v8 =>
  match getnumFixed v8 with
  | none => none
  | some (min, v9) =>
  if 60 ≤ min then none else
  match skipChar ':' v9 with
  | none => none
  | some v10 =>
  match getnumFixed v10 with
  | none => none
  | some (sec, v11) =>
  if 60 ≤ sec then none else
  if fractionAhead v11 then none else
  match parseZone v11 with
  | none => none
  | some (zone, rest) =>
  if rest ≠ [] then none else
  if day < 1 ∨ day > daysIn month year then none else
  match zone with
  | none => some (Date year month day hour min sec)
  | some zoneOffset => some ((Date year month day hour min sec).addSec (-zoneOffset))

/-! ## The handler -/

/-- The envelope steps of `request`, for a world that hands the request on and
gets a response whose body decodes into `out`. -/
theorem request_of_envelope {π τ : Type} (w : World) (marshal : π → Except GoError Json)
    (unmarshal : Json → τ → τ × Option GoError) (method : String) (data : Option τ)
    (params : List π) (body : Option Json) (response : HttpResponse) (out : Envelope)
    (hm : marshalParams marshal params = .ok body)
    (hn : w.newRequest "POST" (apiURL w.token method) = none)
    (hr : w.roundTrip (outbound w method body) = .ok response)
    (he : decodeEnvelope w.float64 response.body = (out, none)) :
    request w marshal unmarshal method data params =
      if !out.Ok then ⟨some (.api out.Description out.ErrorCode), data, [.send (outbound w method body)]⟩
      else match data with
        | none => ⟨none, none, [.send (outbound w method body)]⟩
        | some target =>
          ⟨(unmarshal out.Result target).2, some (unmarshal out.Result target).1,
            [.send (outbound w method body), .marshalResult out.Result,
              .unmarshalResult out.Result]⟩ := by
  unfold outbound at hr
  simp only [request, hm, hn, hr, he, outbound]

/-- The parameter of the handler's call marshals to `echoPayload`. -/
theorem marshal_echoParams (update : mUpdate) :
    marshalParams marshalReqSendMessage [echoParams update] = .ok (some (echoPayload update)) := rfl

/-- The handler after a successful decode, in terms of its call of `request`. -/
theorem webhook_of_decoded (w : World) (body : Body) (update : mUpdate)
    (h : decodeUpdate body = (update, none)) :
    webhook w body =
      match (request w marshalReqSendMessage unmarshalResSendMessage rSendMessage
          (some ({} : resSendMessage)) [echoParams update]).err with
      | some err =>
        ⟨httpError err.Error StatusBadRequest, [(rSendMessage, echoParams update)],
          (request w marshalReqSendMessage unmarshalResSendMessage rSendMessage
            (some ({} : resSendMessage)) [echoParams update]).trace⟩
      | none =>
        ⟨noWrite, [(rSendMessage, echoParams update)],
          (request w marshalReqSendMessage unmarshalResSendMessage rSendMessage
            (some ({} : resSendMessage)) [echoParams update]).trace⟩ := by
  simp only [webhook, h, echoParams]

/-- The requests `request` hands to the HTTP client: the one it built, unless
marshalling or `http.NewRequest` failed. -/
theorem sent_request {π τ : Type} (w : World) (marshal : π → Except GoError Json)
    (unmarshal : Json → τ → τ × Option GoError) (method : String) (data : Option τ)
    (params : List π) (body : Option Json)
    (hm : marshalParams marshal params = .ok body) :
    sent (request w marshal unmarshal method data params).trace =
      if w.newRequest "POST" (apiURL w.token method) = none then [outbound w method body]
      else [] := by
  unfold request
  simp only [hm]
  cases hn : w.newRequest "POST" (apiURL w.token method) with
  | some e => simp [sent]
  | none =>
    simp only [if_true]
    cases hr : w.roundTrip ⟨"POST", apiURL w.token method, "application/json; charset=utf-8", body⟩ with
    | error e => simp [sent, outbound]
    | ok response =>
      simp only
      rcases hd : decodeEnvelope w.float64 response.body with ⟨out, _ | e⟩
      · simp only
        split
        · simp [sent, outbound]
        · cases data <;> simp [sent, outbound]
      · simp [sent, outbound]

/-- C1: for every body that decodes into an update, the handler calls the API
client exactly once, with method `sendMessage` and a parameter whose chat id,
reply-to id and parse mode are the inbound chat id, the inbound message id and
`Markdown`; the payload carries them as `chat_id`, `reply_to_message_id` and
`parse_mode`, and it is the body of the one HTTP request handed to the client
(none is handed over only if `http.NewRequest` rejects the URL). -/
theorem webhook_calls_sendMessage_once (w : World) (body : Body) (update : mUpdate)
    (h : decodeUpdate body = (update, none)) :
    ∃ req : reqSendMessage, ∃ payload : Json,
      (webhook w body).calls = [("sendMessage", req)] ∧
      req.ChatID = update.Message.Chat.ID ∧
      req.ReplyToMessageID = update.Message.ID ∧
      req.ParseMode = "Markdown" ∧
      marshalReqSendMessage req = .ok payload ∧
      payload.get "chat_id" = some (.num (fmtInt update.Message.Chat.ID)) ∧
      payload.get "reply_to_message_id" = some (.num (fmtInt update.Message.ID)) ∧
      payload.get "parse_mode" = some (.str "Markdown") ∧
      sent (webhook w body).trace =
        (if w.newRequest "POST" (apiURL w.token "sendMessage") = none then
          [outbound w "sendMessage" (some payload)] else []) := by
  refine ⟨echoParams update, echoPayload update, ?_, rfl, rfl, rfl, rfl, ?_, ?_, ?_, ?_⟩
  · rw [webhook_of_decoded w body update h]
    split <;> rfl
  · simp [echoPayload, Json.get, JsonMembers.find]
  · simp [echoPayload, Json.get, JsonMembers.find]
  · simp [echoPayload, Json.get, JsonMembers.find]
  · have hs := sent_request w marshalReqSendMessage unmarshalResSendMessage rSendMessage
      (some ({} : resSendMessage)) [echoParams update] _ (marshal_echoParams update)
    rw [webhook_of_decoded w body update h]
    split <;> exact hs

/-- Witness of C1 on the sample update. -/
theorem webhook_calls_sendMessage_once_witness :
    decodeUpdate (.json sampleUpdate) = (sampleDecoded, none) ∧
    ∃ req : reqSendMessage, ∃ payload : Json,
      (webhook (answering 200 bodyOk) (.json sampleUpdate)).calls = [("sendMessage", req)] ∧
      req.ChatID = sampleDecoded.Message.Chat.ID ∧
      req.ReplyToMessageID = sampleDecoded.Message.ID ∧
      req.ParseMode = "Markdown" ∧
      marshalReqSendMessage req = .ok payload ∧
      payload.get "chat_id" = some (.num (fmtInt sampleDecoded.Message.Chat.ID)) ∧
      payload.get "reply_to_message_id" = some (.num (fmtInt sampleDecoded.Message.ID)) ∧
      payload.get "parse_mode" = some (.str "Markdown") ∧
      sent (webhook (answering 200 bodyOk) (.json sampleUpdate)).trace =
        (if (answering 200 bodyOk).newRequest "POST"
            (apiURL (answering 200 bodyOk).token "sendMessage") = none then
          [outbound (answering 200 bodyOk) "sendMessage" (some payload)] else []) :=
  ⟨by decide,
    webhook_calls_sendMessage_once (answering 200 bodyOk) (.json sampleUpdate) sampleDecoded
      (by decide)⟩

/-- C2, as stated, fails on the sample update: its text is `hi`, and the text
the handler sends is `*You just said:* hi`, with a space after the marker, not
the marker followed directly by `hi`. -/
theorem echo_text_sample_has_space :
    decodeUpdate (.json sampleUpdate) = (sampleDecoded, none) ∧
    sampleDecoded.Message.Text = "hi" ∧
    (webhook (answering 200 bodyOk) (.json sampleUpdate)).calls.map (fun c => c.2.Text)
      = ["*You just said:* hi"] ∧
    (webhook (answering 200 bodyOk) (.json sampleUpdate)).calls.map (fun c => c.2.Text)
      ≠ ["*You just said:*" ++ "hi"] := by
  decide

/-- C2 (amended): for every decoded update with text `s`, the text of the one
call the handler makes is `*You just said:* ` (ending in a space) followed by
`s`, and every HTTP request handed to the client carries it as `text`. -/
theorem echo_text_is_marker_space_text (w : World) (body : Body) (update : mUpdate)
    (h : decodeUpdate body = (update, none)) :
    (webhook w body).calls.map (fun c => c.2.Text)
      = ["*You just said:* " ++ update.Message.Text] ∧
    ∀ r ∈ sent (webhook w body).trace, ∃ payload : Json,
      r.body = some payload ∧
      payload.get "text" = some (.str ("*You just said:* " ++ update.Message.Text)) := by
  constructor
  · rw [webhook_of_decoded w body update h]
    split <;> rfl
  · intro r hr
    have hs := sent_request w marshalReqSendMessage unmarshalResSendMessage rSendMessage
      (some ({} : resSendMessage)) [echoParams update] _ (marshal_echoParams update)
    have hw : sent (webhook w body).trace =
        sent (request w marshalReqSendMessage unmarshalResSendMessage rSendMessage
          (some ({} : resSendMessage)) [echoParams update]).trace := by
      rw [webhook_of_decoded w body update h]
      split <;> rfl
    rw [hw, hs] at hr
    split at hr
    · rw [List.mem_singleton] at hr
      subst hr
      exact ⟨echoPayload update, rfl, by simp [echoPayload, Json.get, JsonMembers.find]⟩
    · simp at hr

/-- Witness of C2 (amended) on the sample update. -/
theorem echo_text_is_marker_space_text_witness :
    decodeUpdate (.json sampleUpdate) = (sampleDecoded, none) ∧
    ((webhook (answering 200 bodyOk) (.json sampleUpdate)).calls.map (fun c => c.2.Text)
      = ["*You just said:* " ++ sampleDecoded.Message.Text] ∧
    ∀ r ∈ sent (webhook (answering 200 bodyOk) (.json sampleUpdate)).trace, ∃ payload : Json,
      r.body = some payload ∧
      payload.get "text" = some (.str ("*You just said:* " ++ sampleDecoded.Message.Text))) :=
  ⟨by decide,
    echo_text_is_marker_space_text (answering 200 bodyOk) (.json sampleUpdate) sampleDecoded
      (by decide)⟩

/-- The reply of the handler when the exchange with the API yields the
envelope `out`. -/
theorem webhook_of_envelope (w : World) (body : Body) (update : mUpdate)
    (response : HttpResponse) (out : Envelope)
    (hu : decodeUpdate body = (update, none))
    (hn : w.newRequest "POST" (apiURL w.token rSendMessage) = none)
    (hr : w.roundTrip (outbound w rSendMessage (some (echoPayload update))) = .ok response)
    (he : decodeEnvelope w.float64 response.body = (out, none)) :
    (webhook w body).reply =
      if !out.Ok then
        httpError (GoError.api out.Description out.ErrorCode).Error StatusBadRequest
      else match (unmarshalResSendMessage out.Result {}).2 with
        | some err => httpError err.Error StatusBadRequest
        | none => noWrite := by
  rw [webhook_of_decoded w body update hu,
    request_of_envelope w marshalReqSendMessage unmarshalResSendMessage rSendMessage
      (some ({} : resSendMessage)) [echoParams update] _ response out
      (marshal_echoParams update) hn hr he]
  cases hok : out.Ok
  · simp
  · simp only [Bool.not_true, Bool.false_eq_true, if_false]
    cases (unmarshalResSendMessage out.Result {}).2 <;> rfl

/-- C3, as stated, fails on the sample: with the envelope
`{"ok":false,"error_code":400,"description":"Bad Request: chat not found"}` the
status is 400 but the body is the message followed by a newline, not exactly
the message. -/
theorem failed_call_body_sample_has_newline :
    decodeUpdate (.json sampleUpdate) = (sampleDecoded, none) ∧
    (decodeEnvelope (answering 400 bodyChatNotFound).float64 bodyChatNotFound).2 = none ∧
    (decodeEnvelope (answering 400 bodyChatNotFound).float64 bodyChatNotFound).1.Ok = false ∧
    (decodeEnvelope (answering 400 bodyChatNotFound).float64 bodyChatNotFound).1.Description
      = "Bad Request: chat not found" ∧
    (decodeEnvelope (answering 400 bodyChatNotFound).float64 bodyChatNotFound).1.ErrorCode = 400 ∧
    (webhook (answering 400 bodyChatNotFound) (.json sampleUpdate)).reply
      = ⟨400, "got: Bad Request: chat not found [400]\n"⟩ ∧
    (webhook (answering 400 bodyChatNotFound) (.json sampleUpdate)).reply.body
      ≠ "got: Bad Request: chat not found [400]" := by
  decide

/-- C3 (amended): for every decoded update, if the envelope of the upstream
response has `ok = false`, description `d` and error code `c`, the handler
replies with status 400 and the body `got: d [c]` followed by a newline. -/
theorem failed_call_reply (w : World) (body : Body) (update : mUpdate)
    (response : HttpResponse) (out : Envelope)
    (hu : decodeUpdate body = (update, none))
    (hn : w.newRequest "POST" (apiURL w.token rSendMessage) = none)
    (hr : w.roundTrip (outbound w rSendMessage (some (echoPayload update))) = .ok response)
    (he : decodeEnvelope w.float64 response.body = (out, none))
    (hok : out.Ok = false) :
    (webhook w body).reply =
      ⟨400, "got: " ++ out.Description ++ " [" ++ fmtInt out.ErrorCode ++ "]" ++ "\n"⟩ := by
  rw [webhook_of_envelope w body update response out hu hn hr he, hok]
  rfl

/-- Witness of C3 (amended) on the sample update and the `chat not found`
envelope. -/
theorem failed_call_reply_witness :
    (webhook (answering 400 bodyChatNotFound) (.json sampleUpdate)).reply =
      ⟨400, "got: " ++ "Bad Request: chat not found" ++ " [" ++ fmtInt 400 ++ "]" ++ "\n"⟩ :=
  failed_call_reply (answering 400 bodyChatNotFound) (.json sampleUpdate) sampleDecoded
    ⟨400, bodyChatNotFound⟩
    { Ok := false, ErrorCode := 400, Description := "Bad Request: chat not found" }
    (by decide) rfl rfl rfl rfl

/-- C4, as stated, fails on the sample: with the envelope
`{"ok":true,"result":"done"}` the handler replies 400, because it asks
`request` for a typed result and a string does not decode into one. -/
theorem ok_envelope_string_result_sample_is_400 :
    decodeUpdate (.json sampleUpdate) = (sampleDecoded, none) ∧
    (decodeEnvelope (answering 200 bodyOkString).float64 bodyOkString).2 = none ∧
    (decodeEnvelope (answering 200 bodyOkString).float64 bodyOkString).1.Ok = true ∧
    (webhook (answering 200 bodyOkString) (.json sampleUpdate)).reply =
      ⟨400, "json: cannot unmarshal string into Go value of type main.resSendMessage\n"⟩ ∧
    (webhook (answering 200 bodyOkString) (.json sampleUpdate)).reply ≠ ⟨200, ""⟩ := by
  decide

/-- C4 (amended): for every decoded update and every upstream envelope with
`ok = true`, the handler replies 200 with an empty body exactly when the
envelope's result decodes into a `resSendMessage` without error, in particular
when it is absent or null; otherwise it replies 400 with the decoding error
and a newline, in particular whenever the result is neither null nor an
object. -/
theorem ok_envelope_reply (w : World) (body : Body) (update : mUpdate)
    (response : HttpResponse) (out : Envelope)
    (hu : decodeUpdate body = (update, none))
    (hn : w.newRequest "POST" (apiURL w.token rSendMessage) = none)
    (hr : w.roundTrip (outbound w rSendMessage (some (echoPayload update))) = .ok response)
    (he : decodeEnvelope w.float64 response.body = (out, none))
    (hok : out.Ok = true) :
    ((unmarshalResSendMessage out.Result {}).2 = none →
      (webhook w body).reply = ⟨200, ""⟩) ∧
    (∀ err, (unmarshalResSendMessage out.Result {}).2 = some err →
      (webhook w body).reply = ⟨400, err.Error ++ "\n"⟩) ∧
    (out.Result = .null → (webhook w body).reply = ⟨200, ""⟩) ∧
    (out.Result ≠ .null → (∀ kvs, out.Result ≠ .obj kvs) →
      (webhook w body).reply.status = 400) := by
  have hw := webhook_of_envelope w body update response out hu hn hr he
  rw [hok] at hw
  simp only [Bool.not_true, Bool.false_eq_true, if_false] at hw
  refine ⟨?_, ?_, ?_, ?_⟩
  · intro h
    rw [hw, h]
    rfl
  · intro err h
    rw [hw, h]
    rfl
  · intro h
    rw [hw, h]
    rfl
  · intro h1 h2
    rw [hw]
    cases hres : out.Result with
    | null => exact absurd hres h1
    | obj kvs => exact absurd hres (h2 kvs)
    | bool b => rfl
    | num lit => rfl
    | str s => rfl
    | arr xs => rfl

/-- Witness of C4 (amended) on the sample update and the envelope
`{"ok":true}`, whose result is absent. -/
theorem ok_envelope_reply_witness :
    (webhook (answering 200 bodyOk) (.json sampleUpdate)).reply = ⟨200, ""⟩ :=
  (ok_envelope_reply (answering 200 bodyOk) (.json sampleUpdate) sampleDecoded
    ⟨200, bodyOk⟩ { Ok := true } (by decide) rfl rfl rfl rfl).2.2.1 rfl

/-- What `readLoop` returns splits the text it was given: the value it read
and the text left over, one behind the other. -/
theorem readLoop_splits (cs : List Char) :
    ∀ (s : Scanner) (taken value rest : List Char),
      readLoop s taken cs = .ok (value, rest) → taken.reverse ++ cs = value ++ rest := by
  induction cs with
  | nil =>
    intro s taken value rest h
    simp only [readLoop] at h
    split at h
    · simp only [Except.ok.injEq, Prod.mk.injEq] at h
      rw [← h.1, ← h.2]
    · split at h <;> exact Except.noConfusion h
  | cons c cs ih =>
    intro s taken value rest h
    simp only [readLoop] at h
    split at h
    · simp only [Except.ok.injEq, Prod.mk.injEq] at h
      rw [← h.1, ← h.2]
    · exact Except.noConfusion h
    · split at h
      · simp only [Except.ok.injEq, Prod.mk.injEq] at h
        rw [← h.1, ← h.2]
        simp
      · have := ih _ _ _ _ h
        rw [← this]
        simp
    · have := ih _ _ _ _ h
      rw [← this]
      simp

set_option maxRecDepth 100000 in
/-- C5, as stated, fails on two bodies that are not valid JSON.  The sample
update is valid JSON; followed by `]]` it is not, and yet it is not rejected:
the decoder reads the update and never looks at what follows, so the handler
makes its call and replies 200.
The truncated body `{` is rejected with status 400 and no call, but the body
of the reply is the error text followed by a newline, not the error text. -/
theorem invalid_body_samples :
    validJSON sampleText = true ∧
    validJSON sampleTextTrailing = false ∧
    (webhook (answering 200 bodyOk) (readBody sampleTextTrailing)).calls
      = [("sendMessage", ⟨42, "*You just said:* hi", 5, "Markdown"⟩)] ∧
    (sent (webhook (answering 200 bodyOk) (readBody sampleTextTrailing)).trace).length = 1 ∧
    (webhook (answering 200 bodyOk) (readBody sampleTextTrailing)).reply = ⟨200, ""⟩ ∧
    validJSON "\x7b" = false ∧
    (webhook (answering 200 bodyOk) (readBody "\x7b")).calls = [] ∧
    (sent (webhook (answering 200 bodyOk) (readBody "\x7b")).trace).length = 0 ∧
    (webhook (answering 200 bodyOk) (readBody "\x7b")).reply = ⟨400, "unexpected EOF\n"⟩ ∧
    (webhook (answering 200 bodyOk) (readBody "\x7b")).reply.body ≠ "unexpected EOF" := by
  decide

/-- C5 (amended): for every body from which the decoder cannot read a first
JSON value, the handler calls nothing (no call of `request`, no HTTP request)
and replies with status 400 and the decode error's text followed by a newline;
the same holds for every body whose value does not decode into an update.  A
body that is not valid JSON is such a body unless it starts with a complete
JSON value that other data follows; that body is split into the value and what
follows, and the handler treats it as the value alone. -/
theorem garbage_body_reply (w : World) :
    (∀ err : String,
      (webhook w (.garbage err)).calls = [] ∧ (webhook w (.garbage err)).trace = [] ∧
      (webhook w (.garbage err)).reply = ⟨400, err ++ "\n"⟩) ∧
    (∀ (body : Body) (update : mUpdate) (err : GoError),
      decodeUpdate body = (update, some err) →
      (webhook w body).calls = [] ∧ (webhook w body).trace = [] ∧
      (webhook w body).reply = ⟨400, err.Error ++ "\n"⟩) ∧
    (∀ (text : String) (err : String), readValue text = .error err →
      (webhook w (readBody text)).calls = [] ∧ (webhook w (readBody text)).trace = [] ∧
      (webhook w (readBody text)).reply = ⟨400, err ++ "\n"⟩) ∧
    (∀ text : String, validJSON text = false →
      (∃ err, readValue text = .error err) ∨
      (∃ value rest, readValue text = .ok (value, rest) ∧ rest.all isSpace = false)) ∧
    (∀ (text : String) (value rest : List Char), readValue text = .ok (value, rest) →
      text.data = value ++ rest ∧
      webhook w (readBody text) = webhook w (.json (toJson value))) := by
  refine ⟨?_, ?_, ?_, ?_, ?_⟩
  · intro err
    exact ⟨rfl, rfl, rfl⟩
  · intro body update err h
    have hw : webhook w body = ⟨httpError err.Error StatusBadRequest, [], []⟩ := by
      simp only [webhook, h]
    rw [hw]
    exact ⟨rfl, rfl, rfl⟩
  · intro text err h
    have hb : readBody text = .garbage err := by
      simp only [readBody, h]
    rw [hb]
    exact ⟨rfl, rfl, rfl⟩
  · intro text h
    cases hr : readValue text with
    | error err => exact Or.inl ⟨err, rfl⟩
    | ok p =>
      obtain ⟨value, rest⟩ := p
      refine Or.inr ⟨value, rest, rfl, ?_⟩
      simpa only [validJSON, hr] using h
  · intro text value rest h
    constructor
    · have := readLoop_splits text.data Scanner.start [] value rest h
      simpa using this
    · have hb : readBody text = .json (toJson value) := by
        simp only [readBody, h]
      rw [hb]

/-- Witness of C5 (amended): the truncated body `{`, and a body that is JSON
but not an update object (`"hi"`). -/
theorem garbage_body_reply_witness :
    ((webhook (answering 200 bodyOk) (readBody "\x7b")).calls = [] ∧
      (webhook (answering 200 bodyOk) (readBody "\x7b")).trace = [] ∧
      (webhook (answering 200 bodyOk) (readBody "\x7b")).reply
        = ⟨400, "unexpected EOF" ++ "\n"⟩) ∧
    ((webhook (answering 200 bodyOk) (.json (.str "hi"))).calls = [] ∧
      (webhook (answering 200 bodyOk) (.json (.str "hi"))).trace = [] ∧
      (webhook (answering 200 bodyOk) (.json (.str "hi"))).reply =
        ⟨400, (typeErr ErrCtx.top "string" "main.mUpdate").Error ++ "\n"⟩) :=
  ⟨(garbage_body_reply (answering 200 bodyOk)).2.2.1 "\x7b" "unexpected EOF" rfl,
    (garbage_body_reply (answering 200 bodyOk)).2.1 (.json (.str "hi")) {}
      (typeErr ErrCtx.top "string" "main.mUpdate") rfl⟩

/-! ## The API client -/

/-- C6: in `request`, whenever the decoded envelope has `ok = false` the call
returns the error built from description and code, leaves the result target as
it was and neither marshals nor decodes the envelope's result; and whenever a
call changes the target or touches the result, the envelope had `ok = true`. -/
theorem request_not_ok_keeps_target {π τ : Type} (w : World)
    (marshal : π → Except GoError Json) (unmarshal : Json → τ → τ × Option GoError)
    (method : String) (data : Option τ) (params : List π) :
    (∀ (body : Option Json) (response : HttpResponse) (out : Envelope),
      marshalParams marshal params = .ok body →
      w.newRequest "POST" (apiURL w.token method) = none →
      w.roundTrip (outbound w method body) = .ok response →
      decodeEnvelope w.float64 response.body = (out, none) →
      out.Ok = false →
      (request w marshal unmarshal method data params).err
        = some (.api out.Description out.ErrorCode) ∧
      (request w marshal unmarshal method data params).data = data ∧
      touchesResult (request w marshal unmarshal method data params).trace = false) ∧
    ((request w marshal unmarshal method data params).data ≠ data ∨
        touchesResult (request w marshal unmarshal method data params).trace = true →
      ∃ (body : Option Json) (response : HttpResponse) (out : Envelope),
        marshalParams marshal params = .ok body ∧
        w.roundTrip (outbound w method body) = .ok response ∧
        decodeEnvelope w.float64 response.body = (out, none) ∧
        out.Ok = true) := by
  constructor
  · intro body response out hm hn hr he hok
    rw [request_of_envelope w marshal unmarshal method data params body response out hm hn hr he,
      hok]
    exact ⟨rfl, rfl, rfl⟩
  · intro hch
    cases hm : marshalParams marshal params with
    | error e =>
      simp [request, hm, touchesResult] at hch
    | ok body =>
      cases hn : w.newRequest "POST" (apiURL w.token method) with
      | some e => simp [request, hm, hn, touchesResult] at hch
      | none =>
        cases hr : w.roundTrip (outbound w method body) with
        | error e =>
          unfold outbound at hr
          simp [request, hm, hn, hr, touchesResult] at hch
        | ok response =>
          rcases he : decodeEnvelope w.float64 response.body with ⟨out, _ | e⟩
          · refine ⟨body, response, out, rfl, hr, he, ?_⟩
            cases hok : out.Ok
            · rw [request_of_envelope w marshal unmarshal method data params body response out
                hm hn hr he, hok] at hch
              simp [touchesResult] at hch
            · rfl
          · unfold outbound at hr
            simp [request, hm, hn, hr, he, touchesResult] at hch

/-- Witness of C6: a call with a typed target against the envelope
`{"ok":false,"result":{"message_id":7}}`. -/
theorem request_not_ok_keeps_target_witness :
    (request (answering 200 bodyFailedWithResult) marshalReqSendMessage unmarshalResSendMessage
        rSendMessage (some sampleDecoded.Message) [echoParams sampleDecoded]).err
      = some (.api "" 0) ∧
    (request (answering 200 bodyFailedWithResult) marshalReqSendMessage unmarshalResSendMessage
        rSendMessage (some sampleDecoded.Message) [echoParams sampleDecoded]).data
      = some sampleDecoded.Message ∧
    touchesResult (request (answering 200 bodyFailedWithResult) marshalReqSendMessage
        unmarshalResSendMessage rSendMessage (some sampleDecoded.Message)
        [echoParams sampleDecoded]).trace = false :=
  (request_not_ok_keeps_target (answering 200 bodyFailedWithResult) marshalReqSendMessage
    unmarshalResSendMessage rSendMessage (some sampleDecoded.Message)
    [echoParams sampleDecoded]).1 (some (echoPayload sampleDecoded))
    ⟨200, bodyFailedWithResult⟩
    { Ok := false, Result := .obj (.cons "message_id" (.num "7") .nil) } rfl rfl rfl rfl rfl

/-- C7: in `request`, when the result target is nil and the envelope decodes
with `ok = true`, the call returns a nil error, and all it did was hand the
HTTP request to the client: the envelope's result is neither marshalled nor
decoded, whatever it is. -/
theorem request_nil_target_ok {π τ : Type} (w : World)
    (marshal : π → Except GoError Json) (unmarshal : Json → τ → τ × Option GoError)
    (method : String) (params : List π) (body : Option Json) (response : HttpResponse)
    (out : Envelope)
    (hm : marshalParams marshal params = .ok body)
    (hn : w.newRequest "POST" (apiURL w.token method) = none)
    (hr : w.roundTrip (outbound w method body) = .ok response)
    (he : decodeEnvelope w.float64 response.body = (out, none))
    (hok : out.Ok = true) :
    (request w marshal unmarshal method none params).err = none ∧
    (request w marshal unmarshal method none params).data = none ∧
    (request w marshal unmarshal method none params).trace = [.send (outbound w method body)] ∧
    touchesResult (request w marshal unmarshal method none params).trace = false := by
  rw [request_of_envelope w marshal unmarshal method none params body response out hm hn hr he,
    hok]
  exact ⟨rfl, rfl, rfl, rfl⟩

/-- Witness of C7: a call with a nil target against the envelope
`{"ok":true,"result":"done"}`, whose result would not decode. -/
theorem request_nil_target_ok_witness :
    (request (answering 200 bodyOkString) marshalReqSendMessage unmarshalResSendMessage
        rSendMessage none [echoParams sampleDecoded]).err = none ∧
    (request (answering 200 bodyOkString) marshalReqSendMessage unmarshalResSendMessage
        rSendMessage none [echoParams sampleDecoded]).data = none ∧
    (request (answering 200 bodyOkString) marshalReqSendMessage unmarshalResSendMessage
        rSendMessage none [echoParams sampleDecoded]).trace
      = [.send (outbound (answering 200 bodyOkString) rSendMessage
          (some (echoPayload sampleDecoded)))] ∧
    touchesResult (request (answering 200 bodyOkString) marshalReqSendMessage
        unmarshalResSendMessage rSendMessage none [echoParams sampleDecoded]).trace = false :=
  request_nil_target_ok (answering 200 bodyOkString) marshalReqSendMessage
    unmarshalResSendMessage rSendMessage [echoParams sampleDecoded]
    (some (echoPayload sampleDecoded)) ⟨200, bodyOkString⟩
    { Ok := true, Result := .str "done" } rfl rfl rfl rfl rfl

/-- C8: for every method name `m`, `apiURL m` is the base URL
`https://api.telegram.org`, then `/bot`, the configured token, `/`, and `m`;
character by character, token and method name appear as they are. -/
theorem apiURL_eq (token m : String) :
    apiURL token m = "https://api.telegram.org" ++ "/bot" ++ token ++ "/" ++ m ∧
    (apiURL token m).data = "https://api.telegram.org/bot".data ++ token.data ++ ['/'] ++ m.data := by
  constructor
  · rfl
  · simp [apiURL, telegramAPIBaseURL]

/-- C10: the outcome of `request`, and with it everything the handler does,
does not depend on the status code of the upstream response: two worlds that
differ only in the status codes of their responses give the same outcome. -/
theorem request_ignores_status {π τ : Type} (w1 w2 : World)
    (marshal : π → Except GoError Json) (unmarshal : Json → τ → τ × Option GoError)
    (method : String) (data : Option τ) (params : List π)
    (ht : w1.token = w2.token) (hn : w1.newRequest = w2.newRequest)
    (hf : w1.float64 = w2.float64)
    (hb : ∀ r, bodyOf (w1.roundTrip r) = bodyOf (w2.roundTrip r)) :
    request w1 marshal unmarshal method data params
      = request w2 marshal unmarshal method data params ∧
    ∀ body : Body, webhook w1 body = webhook w2 body := by
  have key : ∀ {π τ : Type} (marshal : π → Except GoError Json)
      (unmarshal : Json → τ → τ × Option GoError) (method : String) (data : Option τ)
      (params : List π),
      request w1 marshal unmarshal method data params
        = request w2 marshal unmarshal method data params := by
    intro π τ marshal unmarshal method data params
    unfold request
    rw [ht, hn, hf]
    cases marshalParams marshal params with
    | error e => rfl
    | ok body =>
      simp only
      cases w2.newRequest "POST" (apiURL w2.token method) with
      | some e => rfl
      | none =>
        simp only
        have h := hb ⟨"POST", apiURL w2.token method, "application/json; charset=utf-8", body⟩
        cases h1 : w1.roundTrip ⟨"POST", apiURL w2.token method,
            "application/json; charset=utf-8", body⟩ with
        | error e1 =>
          cases h2 : w2.roundTrip ⟨"POST", apiURL w2.token method,
              "application/json; charset=utf-8", body⟩ with
          | error e2 =>
            rw [h1, h2] at h
            simp only [bodyOf, Except.error.injEq] at h
            rw [h]
          | ok r2 =>
            rw [h1, h2] at h
            simp [bodyOf] at h
        | ok r1 =>
          cases h2 : w2.roundTrip ⟨"POST", apiURL w2.token method,
              "application/json; charset=utf-8", body⟩ with
          | error e2 =>
            rw [h1, h2] at h
            simp [bodyOf] at h
          | ok r2 =>
            rw [h1, h2] at h
            simp only [bodyOf, Except.ok.injEq] at h
            simp only [h]
  refine ⟨key marshal unmarshal method data params, ?_⟩
  intro body
  unfold webhook
  rcases decodeUpdate body with ⟨update, _ | e⟩
  · simp only [key]
  · rfl

/-- Witness of C10: the same `chat not found` body under status 200 and under
status 500. -/
theorem request_ignores_status_witness :
    request (answering 200 bodyChatNotFound) marshalReqSendMessage unmarshalResSendMessage
        rSendMessage (some ({} : resSendMessage)) [echoParams sampleDecoded]
      = request (answering 500 bodyChatNotFound) marshalReqSendMessage unmarshalResSendMessage
        rSendMessage (some ({} : resSendMessage)) [echoParams sampleDecoded] ∧
    ∀ body : Body, webhook (answering 200 bodyChatNotFound) body
      = webhook (answering 500 bodyChatNotFound) body :=
  request_ignores_status (answering 200 bodyChatNotFound) (answering 500 bodyChatNotFound)
    marshalReqSendMessage unmarshalResSendMessage rSendMessage (some ({} : resSendMessage))
    [echoParams sampleDecoded] rfl rfl rfl (fun _ => rfl)

/-! ## Time: the calendar -/

/-- The year arithmetic of `absDate` and of `daysSinceEpoch` undo each other:
splitting day number `d` into a year count `y` and a day of the year `d4` and
counting the days before year `y` gives `d` back; day 365 only occurs in a
leap year; and the day range of the years 0 to 9999 gives those years. -/
theorem split_join (d n1 d1 n2 m2 d2 n3 d3 n4 m4 d4 y : Nat)
    (h1 : n1 = d / 146097) (h2 : d1 = d - 146097 * n1) (h3 : n2 = d1 / 36524)
    (h4 : m2 = n2 - n2 / 4) (h5 : d2 = d1 - 36524 * m2) (h6 : n3 = d2 / 1461)
    (h7 : d3 = d2 - 1461 * n3) (h8 : n4 = d3 / 365) (h9 : m4 = n4 - n4 / 4)
    (h10 : d4 = d3 - 365 * m4) (h11 : y = 400 * n1 + 100 * m2 + 4 * n3 + m4) :
    146097 * (y / 400) + 36524 * ((y - 400 * (y / 400)) / 100)
      + 1461 * ((y - 400 * (y / 400) - 100 * ((y - 400 * (y / 400)) / 100)) / 4)
      + 365 * (y - 400 * (y / 400) - 100 * ((y - 400 * (y / 400)) / 100)
          - 4 * ((y - 400 * (y / 400) - 100 * ((y - 400 * (y / 400)) / 100)) / 4)) + d4 = d ∧
    (d4 < 365 ∨ (d4 = 365 ∧ (y + 1) % 4 = 0 ∧ ((y + 1) % 100 ≠ 0 ∨ (y + 1) % 400 = 0))) ∧
    (106751990353566 ≤ d → 292277022399 ≤ y) ∧
    (d < 106751994005991 → y ≤ 292277032398) := by
  have a1 : d1 < 146097 ∧ d = 146097 * n1 + d1 := by
    clear h3 h4 h5 h6 h7 h8 h9 h10 h11; omega
  have a2 : n2 ≤ 4 := by
    clear h1 h2 h4 h5 h6 h7 h8 h9 h10 h11; omega
  have a3 : m2 ≤ 3 ∧ (n2 ≤ 3 → m2 = n2) ∧ (n2 = 4 → m2 = 3) := by
    clear h1 h2 h3 h5 h6 h7 h8 h9 h10 h11 a1; omega
  have a4 : d1 = 36524 * m2 + d2 ∧ (d2 < 36524 ∨ (m2 = 3 ∧ d2 = 36524)) := by
    clear h1 h2 h4 h6 h7 h8 h9 h10 h11; omega
  have a5 : n3 ≤ 24 ∧ d2 = 1461 * n3 + d3 ∧ d3 < 1461 := by
    clear h1 h2 h3 h4 h5 h8 h9 h10 h11 a1 a2; omega
  have a5' : n3 = 24 → m2 < 3 → d3 < 1460 := by
    clear h1 h2 h3 h4 h5 h6 h7 h8 h9 h10 h11 a1 a2; omega
  have a6 : n4 ≤ 4 := by
    clear h1 h2 h3 h4 h5 h6 h7 h9 h10 h11 a1 a2 a3 a4; omega
  have a7 : m4 ≤ 3 ∧ (n4 ≤ 3 → m4 = n4) ∧ (n4 = 4 → m4 = 3) := by
    clear h1 h2 h3 h4 h5 h6 h7 h8 h10 h11 a1 a2 a3 a4 a5 a5'; omega
  have a8 : d3 = 365 * m4 + d4 ∧ (d4 < 365 ∨ (m4 = 3 ∧ d4 = 365)) := by
    clear h1 h2 h3 h4 h5 h6 h7 h9 h11 a1 a2 a3 a4 a5'; omega
  have a8' : n3 = 24 → m2 < 3 → m4 = 3 → d4 < 365 := by
    clear h1 h2 h3 h4 h5 h6 h7 h8 h9 h10 h11 a1 a2 a3 a4 a6 a7; omega
  clear h1 h2 h3 h4 h5 h6 h7 h8 h9 h10 a2 a6
  have m2le := a3.1
  have m4le := a7.1
  have n3le := a5.1
  clear a3 a7
  have b1 : y / 400 = n1 := by clear a1 a4 a5 a5' a8 a8'; omega
  have b2 : (y - 400 * (y / 400)) / 100 = m2 := by rw [b1]; clear a1 a4 a5 a5' a8 a8' b1; omega
  have b3 : (y - 400 * (y / 400) - 100 * ((y - 400 * (y / 400)) / 100)) / 4 = n3 := by
    rw [b2, b1]; clear a1 a4 a5 a5' a8 a8' b1 b2; omega
  refine ⟨?_, ?_, ?_, ?_⟩
  · rw [b3, b2, b1]; clear b1 b2 b3 a5' a8'; omega
  · clear b1 b2 b3 a1
    rcases a8.2 with h | ⟨hm, hd⟩
    · left; exact h
    · right
      refine ⟨hd, ?_, ?_⟩
      · omega
      · by_cases hn3 : n3 = 24
        · by_cases hm2 : m2 < 3
          · have := a8' hn3 hm2 hm; omega
          · right; omega
        · left; omega
  · intro hd
    clear b1 b2 b3 a5' a8'
    have c1 : 730692555 ≤ n1 := by omega
    by_cases hn : n1 = 730692555
    · have c2 : 145731 ≤ d1 := by omega
      have c3 : m2 = 3 := by omega
      have c4 : 36159 ≤ d2 := by omega
      have c5 : n3 = 24 := by omega
      have c6 : 1095 ≤ d3 := by omega
      have c7 : m4 = 3 := by omega
      omega
    · omega
  · intro hd
    clear b1 b2 b3 a5' a8'
    have c1 : n1 ≤ 730692580 := by omega
    by_cases hn : n1 = 730692580
    · have c2 : d1 < 145731 := by omega
      by_cases hm : m2 = 3
      · have c4 : d2 < 36159 := by omega
        by_cases hn3 : n3 = 24
        · have c6 : d3 < 1095 := by omega
          have c7 : m4 ≤ 2 := by omega
          omega
        · omega
      · omega
    · omega

/-- The value of `unixToInternal`. -/
theorem unixToInternal_eq : unixToInternal = 62135596800 := by decide

/-- Wrapping leaves a value in the `int64` range alone. -/
theorem wrap64_of_range (x : Int) (h1 : -9223372036854775808 ≤ x) (h2 : x < 9223372036854775808) :
    wrap64 x = x := by
  unfold wrap64; omega

/-- The seconds of `time.Unix(t, 0)` are `t`. -/
theorem timeUnix_Unix (t : Int) (h1 : -9223372036854775808 ≤ t) (h2 : t < 9223372036854775808) :
    (timeUnix t).Unix = t := by
  simp only [timeUnix, Time.Unix, wrap64, unixToInternal_eq]; omega

/-- The absolute seconds of `time.Unix(t, 0)` at offset `off`, when they do not
wrap. -/
theorem abs_of_range (t off : Int) (A : Nat)
    (h1 : -9223372036854775808 ≤ t) (h2 : t < 9223372036854775808)
    (hA : (A : Int) = t + off + 9223372028715321600) (hA2 : A < 18446744073709551616) :
    (timeUnix t).abs off = A := by
  simp only [Time.abs, timeUnix_Unix t h1 h2, unixToAbsolute]
  omega

/-- The clock fields are in range and add up to the second of the day. -/
theorem absClock_spec (abs : Nat) :
    (absClock abs).1 < 24 ∧ (absClock abs).2.1 < 60 ∧ (absClock abs).2.2 < 60 ∧
    (absClock abs).1 * 3600 + (absClock abs).2.1 * 60 + (absClock abs).2.2 = abs % 86400 := by
  simp only [absClock, secondsPerDay]
  omega

set_option maxRecDepth 100000 in
/-- Month and day of the month are in range for every day of a year, and
counting back gives the day of the year. -/
theorem monthDay_spec : ∀ leap : Bool, ∀ yday < 366, (yday < 365 ∨ leap = true) →
    1 ≤ (monthDay leap yday).1 ∧ (monthDay leap yday).1 ≤ 12 ∧
    1 ≤ (monthDay leap yday).2 ∧ (monthDay leap yday).2 ≤ 31 ∧
    (monthDay leap yday).2 ≤
      (if (monthDay leap yday).1 = 2 ∧ leap = true then 29
        else daysBefore (monthDay leap yday).1 - daysBefore ((monthDay leap yday).1 - 1)) ∧
    daysBefore ((monthDay leap yday).1 - 1)
      + (if leap = true ∧ (monthDay leap yday).1 ≥ 3 then 1 else 0)
      + ((monthDay leap yday).2 - 1) = yday := by
  decide

/-- The value of `daysSinceEpoch` for year count `y`, without the lets. -/
theorem daysSinceEpoch_eq (y : Nat) (hy : y < 10000000000000) :
    daysSinceEpoch ((y : Int) + absoluteZeroYear) =
    146097 * (y / 400) + 36524 * ((y - 400 * (y / 400)) / 100)
      + 1461 * ((y - 400 * (y / 400) - 100 * ((y - 400 * (y / 400)) / 100)) / 4)
      + 365 * (y - 400 * (y / 400) - 100 * ((y - 400 * (y / 400)) / 100)
          - 4 * ((y - 400 * (y / 400) - 100 * ((y - 400 * (y / 400)) / 100)) / 4)) := by
  have h0 : (((y : Int) + absoluteZeroYear - absoluteZeroYear) % 18446744073709551616).toNat = y := by
    omega
  unfold daysSinceEpoch
  rw [h0]
  simp only [daysPer400Years, daysPer100Years, daysPer4Years]
  omega

/-- The leap year rule in terms of the year count from the absolute zero year. -/
theorem isLeap_eq (y : Nat) :
    isLeap ((y : Int) + absoluteZeroYear) = true ↔
      ((y + 1) % 4 = 0 ∧ ((y + 1) % 100 ≠ 0 ∨ (y + 1) % 400 = 0)) := by
  simp only [isLeap, absoluteZeroYear, decide_eq_true_eq]
  omega

/-- For absolute seconds within the years 0 to 9999: the year is in that range,
the day of the year is in range for it, and `daysSinceEpoch` of the year plus
the day of the year is the day number. -/
theorem absYearDay_spec (abs : Nat) (hlo : 9223371966548102400 ≤ abs)
    (hhi : abs < 9223372282117622400) :
    0 ≤ (absYearDay abs).1 ∧ (absYearDay abs).1 ≤ 9999 ∧
    daysSinceEpoch (absYearDay abs).1 + (absYearDay abs).2 = abs / 86400 ∧
    (absYearDay abs).2 < 366 ∧
    ((absYearDay abs).2 < 365 ∨ isLeap (absYearDay abs).1 = true) := by
  have hd1 : 106751990353566 ≤ abs / 86400 := by omega
  have hd2 : abs / 86400 < 106751994005991 := by omega
  obtain ⟨y, d4, e, s1, s2, s3, s4⟩ : ∃ y d4 : Nat,
      absYearDay abs = ((y : Int) + absoluteZeroYear, d4) ∧
      146097 * (y / 400) + 36524 * ((y - 400 * (y / 400)) / 100)
        + 1461 * ((y - 400 * (y / 400) - 100 * ((y - 400 * (y / 400)) / 100)) / 4)
        + 365 * (y - 400 * (y / 400) - 100 * ((y - 400 * (y / 400)) / 100)
            - 4 * ((y - 400 * (y / 400) - 100 * ((y - 400 * (y / 400)) / 100)) / 4)) + d4
        = abs / 86400 ∧
      (d4 < 365 ∨ (d4 = 365 ∧ (y + 1) % 4 = 0 ∧ ((y + 1) % 100 ≠ 0 ∨ (y + 1) % 400 = 0))) ∧
      (106751990353566 ≤ abs / 86400 → 292277022399 ≤ y) ∧
      (abs / 86400 < 106751994005991 → y ≤ 292277032398) :=
    ⟨_, _, rfl, split_join (abs / 86400) _ _ _ _ _ _ _ _ _ _ _ rfl rfl rfl rfl rfl rfl
      rfl rfl rfl rfl rfl⟩
  have s3 := s3 hd1
  have s4 := s4 hd2
  rw [e]
  simp only
  rw [daysSinceEpoch_eq y (by omega)]
  refine ⟨?_, ?_, s1, ?_, ?_⟩
  · simp only [absoluteZeroYear]; omega
  · simp only [absoluteZeroYear]; omega
  · rcases s2 with h | h
    · omega
    · omega
  · rcases s2 with h | h
    · left; exact h
    · right
      rw [isLeap_eq]
      exact h.2

/-! ## Time: writing and reading digits -/

/-- Reading a digit character gives the digit. -/
theorem digitVal_digitChar (d : Nat) (h : d < 10) : digitVal (digitChar d) = some d := by
  interval_cases d <;> decide

/-- The digit loop on a number below ten. -/
theorem digitsInto_small (fuel u : Nat) (acc : List Char) (h : u < 10) :
    digitsInto (fuel + 1) u acc = digitChar u :: acc := by
  simp [digitsInto, h]

/-- The digit loop on a number from ten on. -/
theorem digitsInto_step (fuel u : Nat) (acc : List Char) (h : 10 ≤ u) :
    digitsInto (fuel + 1) u acc = digitsInto fuel (u / 10) (digitChar (u % 10) :: acc) := by
  simp [digitsInto, h]

/-- A number below 100 is written as its two digits. -/
theorem appendInt_two (n : Nat) (h : n < 100) :
    appendInt (n : Int) 2 = [digitChar (n / 10), digitChar (n % 10)] := by
  have hneg : ¬ ((n : Int) < 0) := by omega
  simp only [appendInt, hneg, if_false, Int.natAbs_ofNat, List.nil_append]
  by_cases h10 : n < 10
  · rw [digitsInto_small _ _ _ h10]
    have e1 : n / 10 = 0 := by omega
    have e2 : n % 10 = n := by omega
    rw [e1, e2]
    rfl
  · rw [digitsInto_step _ _ _ (by omega), digitsInto_small _ _ _ (by omega)]
    rfl

/-- A number below 10000 is written as its four digits. -/
theorem appendInt_four (n : Nat) (h : n < 10000) :
    appendInt (n : Int) 4 =
      [digitChar (n / 1000), digitChar (n / 100 % 10), digitChar (n / 10 % 10),
        digitChar (n % 10)] := by
  have hneg : ¬ ((n : Int) < 0) := by omega
  simp only [appendInt, hneg, if_false, Int.natAbs_ofNat, List.nil_append]
  by_cases h10 : n < 10
  · rw [digitsInto_small _ _ _ h10]
    have e1 : n / 1000 = 0 := by omega
    have e2 : n / 100 % 10 = 0 := by omega
    have e3 : n / 10 % 10 = 0 := by omega
    have e4 : n % 10 = n := by omega
    rw [e1, e2, e3, e4]
    rfl
  · by_cases h100 : n < 100
    · rw [digitsInto_step _ _ _ (by omega), digitsInto_small _ _ _ (by omega)]
      have e1 : n / 1000 = 0 := by omega
      have e2 : n / 100 % 10 = 0 := by omega
      have e3 : n / 10 % 10 = n / 10 := by omega
      rw [e1, e2, e3]
      rfl
    · by_cases h1000 : n < 1000
      · rw [digitsInto_step _ _ _ (by omega), digitsInto_step _ _ _ (by omega),
          digitsInto_small _ _ _ (by omega)]
        have e1 : n / 1000 = 0 := by omega
        have e2 : n / 100 % 10 = n / 10 / 10 := by omega
        rw [e1, e2]
        rfl
      · rw [digitsInto_step _ _ _ (by omega), digitsInto_step _ _ _ (by omega),
          digitsInto_step _ _ _ (by omega), digitsInto_small _ _ _ (by omega)]
        have e1 : n / 1000 = n / 10 / 10 / 10 := by omega
        have e2 : n / 100 % 10 = n / 10 / 10 % 10 := by omega
        rw [e1, e2]
        rfl

/-- Reading two written digits with `getnum(s, true)`. -/
theorem getnumFixed_two (n : Nat) (h : n < 100) (rest : List Char) :
    getnumFixed (digitChar (n / 10) :: digitChar (n % 10) :: rest) = some (n, rest) := by
  simp only [getnumFixed, digitVal_digitChar (n / 10) (by omega),
    digitVal_digitChar (n % 10) (by omega)]
  have e : n / 10 * 10 + n % 10 = n := by omega
  rw [e]

/-- Reading two written digits with `getnum(s, false)`. -/
theorem getnum_two (n : Nat) (h : n < 100) (rest : List Char) :
    getnum (digitChar (n / 10) :: digitChar (n % 10) :: rest) = some (n, rest) := by
  simp only [getnum, digitVal_digitChar (n / 10) (by omega),
    digitVal_digitChar (n % 10) (by omega)]
  have e : n / 10 * 10 + n % 10 = n := by omega
  rw [e]

/-- Reading four written digits as a year. -/
theorem getYear_four (n : Nat) (h : n < 10000) (rest : List Char) :
    getYear (digitChar (n / 1000) :: digitChar (n / 100 % 10) :: digitChar (n / 10 % 10)
      :: digitChar (n % 10) :: rest) = some (n, rest) := by
  simp only [getYear, digitVal_digitChar (n / 1000) (by omega),
    digitVal_digitChar (n / 100 % 10) (by omega), digitVal_digitChar (n / 10 % 10) (by omega),
    digitVal_digitChar (n % 10) (by omega)]
  have e : ((n / 1000 * 10 + n / 100 % 10) * 10 + n / 10 % 10) * 10 + n % 10 = n := by omega
  rw [e]

/-! ## Time: the zone -/

/-- The zone text of an offset of `k` minutes east, `k` from 1 to 1439. -/
theorem formatZone_pos (k : Nat) (h1 : 1 ≤ k) (h2 : k < 1440) :
    formatZone ((k : Int) * 60) =
      '+' :: digitChar (k / 60 / 10) :: digitChar (k / 60 % 10) :: ':'
        :: [digitChar (k % 60 / 10), digitChar (k % 60 % 10)] := by
  have hne : ¬ ((k : Int) * 60 = 0) := by omega
  have hz : Int.tdiv ((k : Int) * 60) 60 = (k : Int) := by
    rw [Int.tdiv_eq_ediv (by omega) (by omega)]; omega
  have hnn : ¬ ((k : Int) < 0) := by omega
  have hq : Int.tdiv (k : Int) 60 = ((k / 60 : Nat) : Int) := (Int.ofNat_tdiv k 60).symm
  have hr : Int.tmod (k : Int) 60 = ((k % 60 : Nat) : Int) := (Int.ofNat_tmod k 60).symm
  simp only [formatZone, hne, if_false, hz, hnn, hq, hr]
  rw [appendInt_two _ (by omega), appendInt_two _ (by omega)]
  rfl

/-- The zone text of an offset of `k` minutes west, `k` from 1 to 1439. -/
theorem formatZone_neg (k : Nat) (h1 : 1 ≤ k) (h2 : k < 1440) :
    formatZone (-((k : Int) * 60)) =
      '-' :: digitChar (k / 60 / 10) :: digitChar (k / 60 % 10) :: ':'
        :: [digitChar (k % 60 / 10), digitChar (k % 60 % 10)] := by
  have hne : ¬ (-((k : Int) * 60) = 0) := by omega
  have hz : Int.tdiv (-((k : Int) * 60)) 60 = -(k : Int) := by
    rw [Int.neg_tdiv, Int.tdiv_eq_ediv (by omega) (by omega)]; omega
  have hn : -(k : Int) < 0 := by omega
  have hq : Int.tdiv (k : Int) 60 = ((k / 60 : Nat) : Int) := (Int.ofNat_tdiv k 60).symm
  have hr : Int.tmod (k : Int) 60 = ((k % 60 : Nat) : Int) := (Int.ofNat_tmod k 60).symm
  simp only [formatZone, hne, if_false, hz, hn, if_true, neg_neg, hq, hr]
  rw [appendInt_two _ (by omega), appendInt_two _ (by omega)]
  rfl

/-- Reading a zone text of `k` minutes behind a sign. -/
theorem parseZone_signed (sign : Char) (k : Nat) (h2 : k < 1440) (hs : sign ≠ 'Z') :
    parseZone (sign :: digitChar (k / 60 / 10) :: digitChar (k / 60 % 10) :: ':'
        :: [digitChar (k % 60 / 10), digitChar (k % 60 % 10)]) =
      if sign = '+' then some (some ((k : Int) * 60), [])
      else if sign = '-' then some (some (-((k : Int) * 60)), [])
      else none := by
  have e : parseZone (sign :: digitChar (k / 60 / 10) :: digitChar (k / 60 % 10) :: ':'
        :: [digitChar (k % 60 / 10), digitChar (k % 60 % 10)]) =
      match getnumFixed [digitChar (k / 60 / 10), digitChar (k / 60 % 10)],
          getnumFixed [digitChar (k % 60 / 10), digitChar (k % 60 % 10)] with
      | some (hr, _), some (mm, _) =>
        if hr > 24 ∨ mm > 60 then none
        else if sign = '+' then some (some (((hr * 60 + mm) * 60 : Nat) : Int), [])
        else if sign = '-' then some (some (-(((hr * 60 + mm) * 60 : Nat) : Int)), [])
        else none
      | _, _ => none := by
    unfold parseZone
    split
    · rename_i heq
      simp only [List.cons.injEq] at heq
      exact absurd heq.1 hs
    · rename_i heq
      simp only [List.cons.injEq] at heq
      obtain ⟨rfl, rfl, rfl, -, rfl, rfl, rfl⟩ := heq
      rfl
    · rename_i h1 h2
      exact absurd rfl (h2 _ _ _ _ _ _)
  rw [e, getnumFixed_two _ (by omega), getnumFixed_two _ (by omega)]
  have hr : ¬ (k / 60 > 24 ∨ k % 60 > 60) := by omega
  have hk : (((k / 60 * 60 + k % 60) * 60 : Nat) : Int) = (k : Int) * 60 := by omega
  simp only [hr, if_false, hk]

/-! ## Time: reading back what was written -/

/-- Reading a text written from fields that are in range: the fields go to
`Date`, and the zone offset is subtracted. -/
theorem parse_fields (Y M D h mi s : Nat) (zone : List Char) (zo : Option Int)
    (hY : Y < 10000) (hM1 : 1 ≤ M) (hM2 : M ≤ 12) (hD1 : 1 ≤ D) (hD2 : D ≤ daysIn M (Y : Int))
    (hD3 : D < 100) (hh : h < 24) (hmi : mi < 60) (hs : s < 60)
    (hf : fractionAhead zone = false) (hz : parseZone zone = some (zo, [])) :
    parseRFC3339 ⟨appendInt (Y : Int) 4 ++ '-' :: (appendInt (M : Int) 2 ++ '-'
      :: (appendInt (D : Int) 2 ++ 'T' :: (appendInt (h : Int) 2 ++ ':'
      :: (appendInt (mi : Int) 2 ++ ':' :: (appendInt (s : Int) 2 ++ zone)))))⟩ =
      match zo with
      | none => some (Date Y M D h mi s)
      | some zoneOffset => some ((Date Y M D h mi s).addSec (-zoneOffset)) := by
  rw [appendInt_four Y hY, appendInt_two M (by omega), appendInt_two D hD3,
    appendInt_two h (by omega), appendInt_two mi (by omega), appendInt_two s (by omega)]
  have hM : ¬ (M = 0 ∨ 12 < M) := by omega
  have hh' : ¬ (24 ≤ h) := by omega
  have hmi' : ¬ (60 ≤ mi) := by omega
  have hs' : ¬ (60 ≤ s) := by omega
  have hD : ¬ (D < 1 ∨ D > daysIn M (Y : Int)) := by omega
  simp only [parseRFC3339, List.cons_append, List.nil_append, getYear_four Y hY, skipChar,
    if_true, getnumFixed_two M (by omega), hM, if_false, getnumFixed_two D hD3,
    getnum_two h (by omega), hh', getnumFixed_two mi (by omega), hmi',
    getnumFixed_two s (by omega), hs', hf, hz, hD, ne_eq, not_true_eq_false, Bool.false_eq_true]
  cases zo <;> rfl

/-- The function `norm` leaves a pair alone whose low part is in range. -/
theorem norm_id (hi lo base : Int) (h1 : 0 ≤ lo) (h2 : lo < base) : norm hi lo base = (hi, lo) := by
  have a : ¬ (lo < 0) := by omega
  have b : ¬ (lo ≥ base) := by omega
  simp only [norm, a, b, if_false]

/-- The function `Date` on fields in range, in terms of the absolute second
`total` that the fields denote. -/
theorem Date_fields (Y M D h mi s total : Nat) (hM1 : 1 ≤ M) (hM2 : M ≤ 12) (hD1 : 1 ≤ D)
    (hh : h < 24) (hmi : mi < 60) (hs : s < 60)
    (htot : total = (daysSinceEpoch (Y : Int) + daysBefore (M - 1)
      + (if isLeap (Y : Int) = true ∧ M ≥ 3 then 1 else 0) + (D - 1)) * 86400
      + (h * 3600 + mi * 60 + s))
    (hlt : total < 18446744073709551616) :
    Date Y M D h mi s = ⟨0, wrap64 (wrap64 ((total : Int) - unixToAbsolute) + unixToInternal)⟩ := by
  have n1 : norm (Y : Int) ((M : Int) - 1) 12 = ((Y : Int), (M : Int) - 1) :=
    norm_id _ _ _ (by omega) (by omega)
  have n2 : norm (mi : Int) (s : Int) 60 = ((mi : Int), (s : Int)) :=
    norm_id _ _ _ (by omega) (by omega)
  have n3 : norm (h : Int) (mi : Int) 60 = ((h : Int), (mi : Int)) :=
    norm_id _ _ _ (by omega) (by omega)
  have n4 : norm (D : Int) (h : Int) 24 = ((D : Int), (h : Int)) :=
    norm_id _ _ _ (by omega) (by omega)
  have e1 : ((M : Int) - 1 + 1 - 1).toNat = M - 1 := by omega
  have e2 : ((M : Int) - 1 + 1 ≥ 3) ↔ M ≥ 3 := by omega
  have e3 : (((D : Int) - 1) % 18446744073709551616).toNat = D - 1 := by omega
  have e4 : (((h : Int) * 3600 + (mi : Int) * 60 + (s : Int)) % 18446744073709551616).toNat
      = h * 3600 + mi * 60 + s := by omega
  simp only [Date, n1, n2, n3, n4, e1, e2, e3, e4, secondsPerDay]
  have e5 : ((if isLeap (Y : Int) = true ∧ M ≥ 3 then
        daysSinceEpoch (Y : Int) + daysBefore (M - 1) + 1
      else daysSinceEpoch (Y : Int) + daysBefore (M - 1)) + (D - 1)) * 86400
      + (h * 3600 + mi * 60 + s) = total := by
    rw [htot]
    split <;> ring
  rw [e5, Nat.mod_eq_of_lt hlt]

/-- Reading back the zone text of a whole-minute offset of less than a day. -/
theorem zone_roundtrip (off : Int) (h60 : off % 60 = 0) (hlo : -86400 < off) (hhi : off < 86400) :
    fractionAhead (formatZone off) = false ∧
    parseZone (formatZone off) = some (if off = 0 then none else some off, []) := by
  rcases Int.lt_trichotomy off 0 with hneg | hzero | hpos
  · obtain ⟨k, hk⟩ : ∃ k : Nat, off = -((k : Int) * 60) := ⟨(-off / 60).toNat, by omega⟩
    have hk1 : 1 ≤ k := by omega
    have hk2 : k < 1440 := by omega
    have hne : ¬ (off = 0) := by omega
    rw [hk, formatZone_neg k hk1 hk2, parseZone_signed '-' k hk2 (by decide), ← hk]
    refine ⟨?_, ?_⟩
    · simp [fractionAhead]
    · simp [hne]
  · subst hzero
    exact ⟨rfl, rfl⟩
  · obtain ⟨k, hk⟩ : ∃ k : Nat, off = (k : Int) * 60 := ⟨(off / 60).toNat, by omega⟩
    have hk1 : 1 ≤ k := by omega
    have hk2 : k < 1440 := by omega
    have hne : ¬ (off = 0) := by omega
    rw [hk, formatZone_pos k hk1 hk2, parseZone_signed '+' k hk2 (by decide), ← hk]
    refine ⟨?_, ?_⟩
    · simp [fractionAhead]
    · simp [hne]

/-- The method `addSec` without saturation. -/
theorem addSec_in_range (t : Time) (d : Int)
    (h1 : -9223372036854775808 ≤ t.ext + d) (h2 : t.ext + d < 9223372036854775808) :
    t.addSec d = { t with ext := t.ext + d } := by
  have hw : wrap64 (t.ext + d) = t.ext + d := wrap64_of_range _ h1 h2
  have hc : decide (t.ext + d > t.ext) = decide (d > 0) := by
    rw [decide_eq_decide]; omega
  simp only [Time.addSec, hw, hc, if_true]

/-- Reading back the text of `time.Unix(t, 0)` at offset `off`, for a whole-minute
offset of less than a day and a local year from 0 to 9999. -/
theorem format_parse (t off : Int) (h60 : off % 60 = 0) (hlo : -86400 < off) (hhi : off < 86400)
    (hy0 : -62167219200 ≤ t + off) (hy1 : t + off < 253402300800) :
    ∃ u, parseRFC3339 ((timeUnix t).Format off) = some u ∧ u.Unix = t ∧ u.Nanosecond = 0 := by
  have ht1 : -9223372036854775808 ≤ t := by omega
  have ht2 : t < 9223372036854775808 := by omega
  obtain ⟨A, hA⟩ : ∃ A : Nat, (A : Int) = t + off + 9223372028715321600 :=
    ⟨(t + off + 9223372028715321600).toNat, by omega⟩
  have habs : (timeUnix t).abs off = A := abs_of_range t off A ht1 ht2 hA (by omega)
  obtain ⟨y0, y1, ysum, yd366, ydleap⟩ := absYearDay_spec A (by omega) (by omega)
  obtain ⟨Y, hY⟩ : ∃ Y : Nat, (absYearDay A).1 = (Y : Int) := ⟨(absYearDay A).1.toNat, by omega⟩
  obtain ⟨m1, m12, d1, d31, dIn, dsum⟩ :=
    monthDay_spec (isLeap (absYearDay A).1) (absYearDay A).2 yd366 ydleap
  obtain ⟨c1, c2, c3, csum⟩ := absClock_spec A
  obtain ⟨zf, zp⟩ := zone_roundtrip off h60 hlo hhi
  have hdate : absDate A = ((Y : Int), monthDay (isLeap (Y : Int)) (absYearDay A).2) := by
    simp only [absDate, hY]
  rw [hY] at dIn dsum m1 m12 d1 d31 ysum
  have hfmt : (timeUnix t).Format off =
      ⟨appendInt (Y : Int) 4 ++ '-' :: (appendInt
        ((monthDay (isLeap (Y : Int)) (absYearDay A).2).1 : Int) 2 ++ '-'
      :: (appendInt ((monthDay (isLeap (Y : Int)) (absYearDay A).2).2 : Int) 2 ++ 'T'
      :: (appendInt ((absClock A).1 : Int) 2 ++ ':'
      :: (appendInt ((absClock A).2.1 : Int) 2 ++ ':'
      :: (appendInt ((absClock A).2.2 : Int) 2 ++ formatZone off)))))⟩ := by
    simp only [Time.Format, habs, hdate]
  have hIn : (monthDay (isLeap (Y : Int)) (absYearDay A).2).2
      ≤ daysIn (monthDay (isLeap (Y : Int)) (absYearDay A).2).1 (Y : Int) := by
    simp only [daysIn]
    exact dIn
  have htot : A = (daysSinceEpoch (Y : Int)
      + daysBefore ((monthDay (isLeap (Y : Int)) (absYearDay A).2).1 - 1)
      + (if isLeap (Y : Int) = true ∧ (monthDay (isLeap (Y : Int)) (absYearDay A).2).1 ≥ 3
          then 1 else 0)
      + ((monthDay (isLeap (Y : Int)) (absYearDay A).2).2 - 1)) * 86400
      + ((absClock A).1 * 3600 + (absClock A).2.1 * 60 + (absClock A).2.2) := by
    rw [csum]
    have e : daysSinceEpoch (Y : Int)
      + daysBefore ((monthDay (isLeap (Y : Int)) (absYearDay A).2).1 - 1)
      + (if isLeap (Y : Int) = true ∧ (monthDay (isLeap (Y : Int)) (absYearDay A).2).1 ≥ 3
          then 1 else 0)
      + ((monthDay (isLeap (Y : Int)) (absYearDay A).2).2 - 1) = A / 86400 := by
      linarith [ysum, dsum]
    rw [e]
    omega
  have hD := Date_fields Y (monthDay (isLeap (Y : Int)) (absYearDay A).2).1
    (monthDay (isLeap (Y : Int)) (absYearDay A).2).2 (absClock A).1 (absClock A).2.1
    (absClock A).2.2 A m1 m12 d1 c1 c2 c3 htot (by omega)
  have hUnixA : wrap64 ((A : Int) - unixToAbsolute) = t + off := by
    simp only [wrap64, unixToAbsolute]; omega
  have hExt : wrap64 (t + off + unixToInternal) = t + off + 62135596800 := by
    simp only [wrap64, unixToInternal_eq]; omega
  rw [hUnixA, hExt] at hD
  rw [hfmt]
  by_cases hz : off = 0
  · have zp0 : parseZone (formatZone off) = some (none, []) := by rw [zp, if_pos hz]
    rw [parse_fields Y _ _ _ _ _ (formatZone off) _ (by omega) m1 m12 d1 hIn (by omega)
      c1 c2 c3 zf zp0, hD]
    refine ⟨_, rfl, ?_, rfl⟩
    simp only [Time.Unix, wrap64, unixToInternal_eq]
    omega
  · have zp1 : parseZone (formatZone off) = some (some off, []) := by rw [zp, if_neg hz]
    rw [parse_fields Y _ _ _ _ _ (formatZone off) _ (by omega) m1 m12 d1 hIn (by omega)
      c1 c2 c3 zf zp1, hD]
    refine ⟨_, rfl, ?_, ?_⟩
    · rw [addSec_in_range _ _ (by simp only; omega) (by simp only; omega)]
      simp only [Time.Unix, wrap64, unixToInternal_eq]
      omega
    · rw [addSec_in_range _ _ (by simp only; omega) (by simp only; omega)]
      rfl

/-! ## The timestamp type -/

set_option maxRecDepth 100000 in
/-- C9, as stated, fails at `t = 253402300800` in a UTC zone: the text is
`10000-01-01T00:00:00Z`, with a year of five digits, and parsing it back as
RFC 3339 fails instead of giving `t`.  It also fails at `t = 0` in a zone
44 minutes and 30 seconds west of UTC: the text carries the offset `-00:44`,
and parsing it back gives `-30`. -/
theorem unixTime_year_10000_not_read_back :
    unixTime.String (fun _ => 0) 253402300800 = "10000-01-01T00:00:00Z" ∧
    parseRFC3339 (unixTime.String (fun _ => 0) 253402300800) = none ∧
    (¬ ∃ u, parseRFC3339 (unixTime.String (fun _ => 0) 253402300800) = some u ∧
      u.Unix = 253402300800) ∧
    unixTime.String (fun _ => -2670) 0 = "1969-12-31T23:15:30-00:44" ∧
    (parseRFC3339 (unixTime.String (fun _ => -2670) 0)).map Time.Unix = some (-30) := by
  refine ⟨by decide, by decide, ?_, by decide, by decide⟩
  rintro ⟨u, hu, -⟩
  have h : parseRFC3339 (unixTime.String (fun _ => 0) 253402300800) = none := by decide
  rw [h] at hu
  exact Option.noConfusion hu

/-- C9 (amended): for every timestamp `t` (an `int64`), `Time()` has
epoch-seconds `t` and a zero sub-second part; and when the local offset from
UTC at `t` is a whole number of minutes, less than a day, and the local year
of `t` lies in 0..9999, parsing `String()` back as RFC 3339 succeeds and gives
epoch-seconds `t` with a zero sub-second part. -/
theorem unixTime_string_roundtrip (loc : Int → Int) (t : unixTime)
    (ht1 : -9223372036854775808 ≤ t) (ht2 : t < 9223372036854775808) :
    (unixTime.Time t).Unix = t ∧ (unixTime.Time t).Nanosecond = 0 ∧
    (loc t % 60 = 0 → -86400 < loc t → loc t < 86400 →
      -62167219200 ≤ t + loc t → t + loc t < 253402300800 →
      ∃ u, parseRFC3339 (unixTime.String loc t) = some u ∧ u.Unix = t ∧ u.Nanosecond = 0) := by
  have hU : (unixTime.Time t).Unix = t := timeUnix_Unix t ht1 ht2
  refine ⟨hU, rfl, ?_⟩
  intro h60 hlo hhi hy0 hy1
  have hS : unixTime.String loc t = (timeUnix t).Format (loc t) := by
    simp only [unixTime.String, hU]
    rfl
  rw [hS]
  exact format_parse t (loc t) h60 hlo hhi hy0 hy1

/-- Witness of C9 (amended): `t = 1500000000` in a zone one hour east of UTC. -/
theorem unixTime_string_roundtrip_witness :
    (unixTime.Time 1500000000).Unix = 1500000000 ∧
    (unixTime.Time 1500000000).Nanosecond = 0 ∧
    ∃ u, parseRFC3339 (unixTime.String (fun _ => 3600) 1500000000) = some u ∧
      u.Unix = 1500000000 ∧ u.Nanosecond = 0 :=
  ⟨(unixTime_string_roundtrip (fun _ => 3600) 1500000000 (by decide) (by decide)).1,
    (unixTime_string_roundtrip (fun _ => 3600) 1500000000 (by decide) (by decide)).2.1,
    (unixTime_string_roundtrip (fun _ => 3600) 1500000000 (by decide) (by decide)).2.2
      (by decide) (by decide) (by decide) (by decide) (by decide)⟩

end Telebot
